import Mathlib

/-!
Shallow embedding of the core of a CPU ray tracer (spheres, planes,
triangle meshes with an AABB-guarded lookup, diffuse shading with shadows
and recursive reflection), together with theorems checking the
natural-language specification against the code.

Floating-point numbers (`f32`/`f64`) are modelled as real numbers; the
rounding of individual operations is not modelled.  Machine integers in the
texture-wrap arithmetic are modelled as `Int` with explicit two's-complement
range handling.  Rust `Option` becomes `Option`, and a `panic!`/`unwrap`
failure becomes `Option.none` of the surrounding operation.
-/

namespace Raytracer

/-! ## Math primitives (src/types.rs, cgmath) -/

/-- A 3-component vector; models both cgmath `Vector3<f64>` and `Point3<f64>`. -/
@[ext]
structure Vec3 where
  x : ℝ
  y : ℝ
  z : ℝ

namespace Vec3

def add (a b : Vec3) : Vec3 := ⟨a.x + b.x, a.y + b.y, a.z + b.z⟩

def sub (a b : Vec3) : Vec3 := ⟨a.x - b.x, a.y - b.y, a.z - b.z⟩

def neg (a : Vec3) : Vec3 := ⟨-a.x, -a.y, -a.z⟩

/-- Componentwise scaling `v * s` (cgmath `Mul<S> for Vector3`). -/
def scale (a : Vec3) (s : ℝ) : Vec3 := ⟨a.x * s, a.y * s, a.z * s⟩

instance : Add Vec3 := ⟨add⟩

instance : Sub Vec3 := ⟨sub⟩

instance : Neg Vec3 := ⟨neg⟩

instance : HMul Vec3 ℝ Vec3 := ⟨scale⟩

def dot (a b : Vec3) : ℝ := a.x * b.x + a.y * b.y + a.z * b.z

def cross (a b : Vec3) : Vec3 :=
  ⟨a.y * b.z - a.z * b.y, a.z * b.x - a.x * b.z, a.x * b.y - a.y * b.x⟩

@[simp] theorem add_x (a b : Vec3) : (a + b).x = a.x + b.x := rfl

@[simp] theorem add_y (a b : Vec3) : (a + b).y = a.y + b.y := rfl

@[simp] theorem add_z (a b : Vec3) : (a + b).z = a.z + b.z := rfl

@[simp] theorem sub_x (a b : Vec3) : (a - b).x = a.x - b.x := rfl

@[simp] theorem sub_y (a b : Vec3) : (a - b).y = a.y - b.y := rfl

@[simp] theorem sub_z (a b : Vec3) : (a - b).z = a.z - b.z := rfl

@[simp] theorem neg_x (a : Vec3) : (-a).x = -a.x := rfl

@[simp] theorem neg_y (a : Vec3) : (-a).y = -a.y := rfl

@[simp] theorem neg_z (a : Vec3) : (-a).z = -a.z := rfl

@[simp] theorem scale_x (a : Vec3) (s : ℝ) : (a * s).x = a.x * s := rfl

@[simp] theorem scale_y (a : Vec3) (s : ℝ) : (a * s).y = a.y * s := rfl

@[simp] theorem scale_z (a : Vec3) (s : ℝ) : (a * s).z = a.z * s := rfl

@[simp] theorem cross_x (a b : Vec3) : (cross a b).x = a.y * b.z - a.z * b.y := rfl

@[simp] theorem cross_y (a b : Vec3) : (cross a b).y = a.z * b.x - a.x * b.z := rfl

@[simp] theorem cross_z (a b : Vec3) : (cross a b).z = a.x * b.y - a.y * b.x := rfl

theorem dot_def (a b : Vec3) : dot a b = a.x * b.x + a.y * b.y + a.z * b.z := rfl

noncomputable def magnitude (a : Vec3) : ℝ := Real.sqrt (dot a a)

/-- cgmath `normalize`: `self * (1 / magnitude)`. -/
noncomputable def normalize (a : Vec3) : Vec3 := scale a (1 / magnitude a)

def zero : Vec3 := ⟨0, 0, 0⟩

end Vec3

/-- Point and direction are type aliases of the same 3-vector (src/types.rs). -/
abbrev Point := Vec3

abbrev Direction := Vec3

/-- A quaternion as in cgmath: scalar part `s` and vector part `v`. -/
structure Quat where
  s : ℝ
  v : Vec3

namespace Quat

/-- The identity quaternion `Quaternion::one()`. -/
def one : Quat := ⟨1, Vec3.zero⟩

/-- cgmath `Quaternion::rotate_vector`:
`self.v.cross(self.v.cross(vec) + vec * self.s) * 2 + vec`. -/
def rotateVector (q : Quat) (vec : Vec3) : Vec3 :=
  (Vec3.cross q.v (Vec3.cross q.v vec + vec * q.s)) * (2 : ℝ) + vec

/-- `rotate_point` goes through `rotate_vector` on the coordinate vector. -/
def rotatePoint (q : Quat) (p : Point) : Point := rotateVector q p

theorem rotateVector_one (vec : Vec3) : rotateVector one vec = vec := by
  unfold rotateVector one
  ext <;> simp [Vec3.zero]

end Quat

/-- `WorldPosition` (src/objects/mod.rs): translation, rotation, uniform scale. -/
structure WorldPosition where
  position : Point
  rotation : Quat
  scale : ℝ

namespace WorldPosition

/-- `translate`: `self.rotation.rotate_point(vec) * self.scale + self.position`. -/
def translate (wp : WorldPosition) (vec : Point) : Point :=
  wp.rotation.rotatePoint vec * wp.scale + wp.position

end WorldPosition

/-! ## Color (src/types.rs) -/

/-- Linear RGB color; the `f32` channels are modelled as reals. -/
@[ext]
structure Color where
  red : ℝ
  green : ℝ
  blue : ℝ

namespace Color

def fromRgb (r g b : ℝ) : Color := ⟨r, g, b⟩

/-- Channel-wise product (`impl Mul for Color`). -/
def mul (a b : Color) : Color := ⟨a.red * b.red, a.green * b.green, a.blue * b.blue⟩

/-- Scalar product (`impl Mul<f32> for Color`). -/
def mulScalar (a : Color) (s : ℝ) : Color := ⟨a.red * s, a.green * s, a.blue * s⟩

/-- Channel-wise sum (`impl Add for Color`). -/
def add (a b : Color) : Color := ⟨a.red + b.red, a.green + b.green, a.blue + b.blue⟩

instance : Mul Color := ⟨mul⟩

instance : HMul Color ℝ Color := ⟨mulScalar⟩

instance : Add Color := ⟨add⟩

def black : Color := ⟨0, 0, 0⟩

@[simp] theorem mul_red (a b : Color) : (a * b).red = a.red * b.red := rfl

@[simp] theorem mul_green (a b : Color) : (a * b).green = a.green * b.green := rfl

@[simp] theorem mul_blue (a b : Color) : (a * b).blue = a.blue * b.blue := rfl

@[simp] theorem smul_red (a : Color) (s : ℝ) : (a * s).red = a.red * s := rfl

@[simp] theorem smul_green (a : Color) (s : ℝ) : (a * s).green = a.green * s := rfl

@[simp] theorem smul_blue (a : Color) (s : ℝ) : (a * s).blue = a.blue * s := rfl

@[simp] theorem add_red (a b : Color) : (a + b).red = a.red + b.red := rfl

@[simp] theorem add_green (a b : Color) : (a + b).green = a.green + b.green := rfl

@[simp] theorem add_blue (a b : Color) : (a + b).blue = a.blue + b.blue := rfl

@[simp] theorem fromRgb_red (r g b : ℝ) : (fromRgb r g b).red = r := rfl

@[simp] theorem fromRgb_green (r g b : ℝ) : (fromRgb r g b).green = g := rfl

@[simp] theorem fromRgb_blue (r g b : ℝ) : (fromRgb r g b).blue = b := rfl

theorem zero_add_color (c : Color) : fromRgb 0 0 0 + c = c := by
  ext <;> simp

end Color

/-! ## Ray and intersection records (src/raycast.rs) -/

inductive RayType where
  | prime
  | reflection
  | shadow
deriving DecidableEq

structure Ray where
  origin : Point
  direction : Direction
  invDirection : Direction
  rayType : RayType

/-- Texture coordinates (`TextureCoords`, two `f32` fields). -/
structure TextureCoords where
  x : ℝ
  y : ℝ

/-- The primitive-level intersection record (`Intersection` in raycast.rs). -/
structure Intersection where
  distance : ℝ
  surfaceNormal : Direction
  hitPoint : Point
  texCoord : TextureCoords

structure SurfaceProperties where
  albedo : ℝ
  color : Color
  reflectivity : Option ℝ

/-- The object-level intersection record (`IntersectionResult`). -/
structure IntersectionResult where
  distance : ℝ
  hitPoint : Point
  surfaceNormal : Direction
  surface : SurfaceProperties

namespace IntersectionResult

def create (i : Intersection) (color : Color) (albedo : ℝ)
    (reflectivity : Option ℝ) : IntersectionResult :=
  { distance := i.distance
    surfaceNormal := i.surfaceNormal
    hitPoint := i.hitPoint
    surface := { reflectivity := reflectivity, albedo := albedo, color := color } }

/-- `reflection_origin`: `hit_point + surface_normal * 1e-13`. -/
def reflectionOrigin (r : IntersectionResult) : Point :=
  r.hitPoint + r.surfaceNormal * (1e-13 : ℝ)

def albedo (r : IntersectionResult) : ℝ := r.surface.albedo

def color (r : IntersectionResult) : Color := r.surface.color

/-- The `reflectivity()` getter: a stored reflectivity below `1e-10` reads as `None`. -/
noncomputable def reflectivity (r : IntersectionResult) : Option ℝ :=
  match r.surface.reflectivity with
  | some v => if v < (1e-10 : ℝ) then none else some v
  | none => none

end IntersectionResult

namespace Ray

/-- `Ray::create_shadow_ray`. -/
noncomputable def createShadowRay (directionToLight : Direction)
    (int : IntersectionResult) : Ray :=
  { origin := int.reflectionOrigin
    invDirection := ⟨1 / directionToLight.x, 1 / directionToLight.y, 1 / directionToLight.z⟩
    direction := directionToLight
    rayType := RayType.shadow }

/-- `Ray::create_reflection`:
`direction = d - 2 * d.dot(normal) * normal` from the reflection origin. -/
noncomputable def createReflection (rayDirection : Direction)
    (int : IntersectionResult) : Ray :=
  let direction :=
    rayDirection - int.surfaceNormal * (2 * Vec3.dot rayDirection int.surfaceNormal)
  { origin := int.reflectionOrigin
    invDirection := ⟨1 / direction.x, 1 / direction.y, 1 / direction.z⟩
    direction := direction
    rayType := RayType.reflection }

end Ray

/-! ## Sphere (src/objects/sphere.rs) -/

structure Sphere where
  radius : ℝ

namespace Sphere

/-- `Sphere::intersect` (src/objects/sphere.rs lines 17-37); `scale` is the
object's world scale. -/
noncomputable def intersect (s : Sphere) (ray : Ray) (position : WorldPosition)
    (scale : ℝ) : Option ℝ :=
  let l := position.position - ray.origin
  let adj2 := Vec3.dot l ray.direction
  let d2 := Vec3.dot l l - adj2 ^ 2
  let radius2 := (s.radius * scale) ^ 2
  if d2 > radius2 then none
  else
    let thc := Real.sqrt (radius2 - d2)
    let t0 := adj2 - thc
    let t1 := adj2 + thc
    if t0 < 0 ∧ t1 < 0 then none
    else some (if t0 < t1 then t0 else t1)

noncomputable def surfaceNormal (hitPoint : Point) (position : WorldPosition) : Direction :=
  Vec3.normalize (hitPoint - position.position)

end Sphere

/-! ## Plane (src/objects/plane.rs) -/

structure Plane where
  normal : Direction

namespace Plane

/-- `Plane::intersect`: single-sided test `denom > 1e-10`. -/
noncomputable def intersect (p : Plane) (ray : Ray) (position : WorldPosition) : Option ℝ :=
  let denom := Vec3.dot p.normal ray.direction
  if denom > (1e-10 : ℝ) then
    let v := position.position - ray.origin
    let distance := Vec3.dot v p.normal / denom
    if distance ≥ 0 then some distance else none
  else none

/-- `Plane::texture_coord`. -/
noncomputable def textureCoord (p : Plane) (hitPoint : Point)
    (position : WorldPosition) : TextureCoords :=
  let xAxis0 := Vec3.cross p.normal ⟨0, 0, 1⟩
  let xAxis := if Vec3.magnitude xAxis0 = 0 then Vec3.cross p.normal ⟨0, 1, 0⟩ else xAxis0
  let yAxis := Vec3.cross p.normal xAxis
  let hitVec := hitPoint - position.position
  ⟨Vec3.dot hitVec xAxis, Vec3.dot hitVec yAxis⟩

end Plane

/-! ## Triangle and mesh (src/objects/mesh.rs) -/

def EPSILON : ℝ := 1e-13

structure Triangle where
  p1 : Point
  p2 : Point
  p3 : Point
  normals : Option (Direction × Direction × Direction)

namespace Triangle

/-- `Triangle::surface_normal`: barycentric interpolation of the per-vertex
normals when present, flat face normal otherwise. -/
noncomputable def surfaceNormal (t : Triangle) (u v : ℝ)
    (position : WorldPosition) : Direction :=
  match t.normals with
  | some (n1, n2, n3) =>
    let n1 := position.rotation.rotateVector n1
    let n2 := position.rotation.rotateVector n2
    let n3 := position.rotation.rotateVector n3
    let w := 1 - u - v
    Vec3.normalize (n1 * w + n2 * u + n3 * v)
  | none => Vec3.normalize (Vec3.cross (t.p2 - t.p1) (t.p3 - t.p1))

/-- `Triangle::intersects` (Möller–Trumbore, lines 108-149): the determinant
test is single-sided, `det < EPSILON` rejects. -/
noncomputable def intersects (t : Triangle) (ray : Ray)
    (position : WorldPosition) : Option (Direction × TextureCoords × ℝ) :=
  let point0 := position.translate t.p1
  let point1 := position.translate t.p2
  let point2 := position.translate t.p3
  let edge1 := point1 - point0
  let edge2 := point2 - point0
  let pvec := Vec3.cross ray.direction edge2
  let det := Vec3.dot edge1 pvec
  if det < EPSILON then none
  else
    let tvec := ray.origin - point0
    let u := Vec3.dot tvec pvec
    if u < 0 ∨ u > det then none
    else
      let qvec := Vec3.cross tvec edge1
      let v := Vec3.dot ray.direction qvec
      if v < 0 ∨ u + v > det then none
      else
        let tdist := Vec3.dot edge2 qvec
        let invDet := 1 / det
        some (t.surfaceNormal (u * invDet) (v * invDet) position,
          ⟨0, 0⟩, tdist * invDet)

end Triangle

/-- Axis-aligned bounding box of a mesh, in model coordinates. -/
structure BoundingBox where
  min : Point
  max : Point

namespace BoundingBox

/-- `BoundingBox::intersects` (lines 13-36): translate the two corners, then
run the slab test accumulating from the X axis.  Real-valued model: the
ray's inverse direction is assumed finite here; `slabTestE` below models the
same lines with `±∞` components. -/
noncomputable def intersects (bb : BoundingBox) (ray : Ray)
    (position : WorldPosition) : Prop :=
  let pmin := position.translate bb.min
  let pmax := position.translate bb.max
  let tx1 := (pmin.x - ray.origin.x) * ray.invDirection.x
  let tx2 := (pmax.x - ray.origin.x) * ray.invDirection.x
  let tmin0 := Min.min tx1 tx2
  let tmax0 := Max.max tx1 tx2
  let ty1 := (pmin.y - ray.origin.y) * ray.invDirection.y
  let ty2 := (pmax.y - ray.origin.y) * ray.invDirection.y
  let tmin1 := Max.max tmin0 (Min.min ty1 ty2)
  let tmax1 := Min.min tmax0 (Max.max ty1 ty2)
  let tz1 := (pmin.z - ray.origin.z) * ray.invDirection.z
  let tz2 := (pmax.z - ray.origin.z) * ray.invDirection.z
  let tmin2 := Max.max tmin1 (Min.min tz1 tz2)
  let tmax2 := Min.min tmax1 (Max.max tz1 tz2)
  tmax2 ≥ tmin2 ∧ tmax2 ≥ 0

end BoundingBox

/-! ### Parsed OBJ input (the `wavefront_obj` structures the mesh consumes) -/

/-- A vertex/texture/normal index triple (`obj::VTNIndex`): vertex index,
optional texture index, optional normal index. -/
abbrev VTNIndex := ℕ × Option ℕ × Option ℕ

inductive ObjPrimitive where
  | triangle (a b c : VTNIndex)
  | other

structure ObjShape where
  primitive : ObjPrimitive

structure ObjGeometry where
  shapes : List ObjShape

/-- A parsed `obj::Object`: vertex table, normal table, geometry groups. -/
structure Obj where
  vertices : List Vec3
  normals : List Vec3
  geometry : List ObjGeometry

inductive MeshTreeNode where
  | node (left right : MeshTreeNode)
  | leaf (triangles : List Triangle)

structure Mesh where
  mesh : Obj
  bb : BoundingBox
  triangles : List Triangle
  root : MeshTreeNode

/-- Rust `Iterator::min` / `min_by` on a `key`: a left fold that keeps the
earlier element on ties. -/
noncomputable def rustMinBy {α : Type} (key : α → ℝ) (l : List α) : Option α :=
  l.foldl
    (fun acc x =>
      match acc with
      | none => some x
      | some a => if key x < key a then some x else some a)
    none

namespace Mesh

/-- One shape of `Mesh::build_triangles` (mesh.rs lines 239-257): the
source indexes `obj.vertices[...]` (always, for a triangle primitive) and
`obj.normals[...]` (when all three normal indices are present) directly,
panicking when an index is out of range — modelled as `none`.  A
non-triangle primitive is skipped (`filter_map`), modelled as `some none`;
a built triangle is `some (some t)`. -/
def buildShape (obj : Obj) (shape : ObjShape) : Option (Option Triangle) :=
  match shape.primitive with
  | ObjPrimitive.triangle i1 i2 i3 =>
    match obj.vertices[i1.1]?, obj.vertices[i2.1]?, obj.vertices[i3.1]? with
    | some v1, some v2, some v3 =>
      match i1.2.2, i2.2.2, i3.2.2 with
      | some n1, some n2, some n3 =>
        match obj.normals[n1]?, obj.normals[n2]?, obj.normals[n3]? with
        | some m1, some m2, some m3 => some (some ⟨v1, v2, v3, some (m1, m2, m3)⟩)
        | _, _, _ => none
      | _, _, _ => some (some ⟨v1, v2, v3, none⟩)
    | _, _, _ => none
  | ObjPrimitive.other => some none

/-- The triangles of one geometry group's shape list, in order; `none` as
soon as a shape's table lookup panics. -/
def shapesTriangles (obj : Obj) : List ObjShape → Option (List Triangle)
  | [] => some []
  | shape :: rest =>
    match buildShape obj shape, shapesTriangles obj rest with
    | some (some t), some ts => some (t :: ts)
    | some none, some ts => some ts
    | _, _ => none

/-- The concatenation over all geometry groups (the source's
`map ... flatten`), `none` when any lookup panics. -/
def geometryTriangles (obj : Obj) : List ObjGeometry → Option (List Triangle)
  | [] => some []
  | g :: gs =>
    match shapesTriangles obj g.shapes, geometryTriangles obj gs with
    | some ts, some rest => some (ts ++ rest)
    | _, _ => none

/-- `Mesh::build_triangles`: one `Triangle` per `Triangle` primitive, with
normals attached when all three normal indices are present; `none` models
the panic on an out-of-range vertex or normal index. -/
def buildTriangles (obj : Obj) : Option (List Triangle) :=
  geometryTriangles obj obj.geometry

/-- A shape's table indices are in range: every triangle primitive's vertex
indices index the vertex table, and — when all three normal indices are
present — its normal indices index the normal table. -/
def shapeIndicesValid (obj : Obj) (s : ObjShape) : Prop :=
  ∀ i1 i2 i3, s.primitive = ObjPrimitive.triangle i1 i2 i3 →
    (i1.1 < obj.vertices.length ∧ i2.1 < obj.vertices.length ∧
      i3.1 < obj.vertices.length) ∧
    ∀ n1 n2 n3, i1.2.2 = some n1 → i2.2.2 = some n2 → i3.2.2 = some n3 →
      n1 < obj.normals.length ∧ n2 < obj.normals.length ∧ n3 < obj.normals.length

/-- Every shape of every geometry group has in-range indices. -/
def objIndicesValid (obj : Obj) : Prop :=
  ∀ g ∈ obj.geometry, ∀ s ∈ g.shapes, shapeIndicesValid obj s

/-- `Mesh::create_bounding_box`: folds min/max over all vertices, starting
from the first vertex.  The source `unwrap`s the first vertex; an empty
vertex table panics, modelled as `none`. -/
noncomputable def createBoundingBox (obj : Obj) : Option BoundingBox :=
  match obj.vertices with
  | [] => none
  | v0 :: _ =>
    let fold := obj.vertices.foldl
      (fun mm v =>
        ((min mm.1.1 v.x, min mm.1.2.1 v.y, min mm.1.2.2 v.z),
         (max mm.2.1 v.x, max mm.2.2.1 v.y, max mm.2.2.2 v.z)))
      ((v0.x, v0.y, v0.z), (v0.x, v0.y, v0.z))
    some ⟨⟨fold.1.1, fold.1.2.1, fold.1.2.2⟩, ⟨fold.2.1, fold.2.2.1, fold.2.2.2⟩⟩

/-- `Mesh::create`: the acceleration-tree root is always a single `Leaf`
holding every triangle; the `Node` constructor is never used.  `none` when
the bounding-box `unwrap` or a triangle table lookup panics. -/
noncomputable def create (obj : Obj) : Option Mesh :=
  match createBoundingBox obj, buildTriangles obj with
  | some bb, some tris =>
    some { bb := bb
           triangles := tris
           root := MeshTreeNode.leaf tris
           mesh := obj }
  | _, _ => none

/-- The brute-force part of `Mesh::intersect` (lines 188-191): test every
triangle, take the minimum-`t` hit. -/
noncomputable def bruteForce (m : Mesh) (ray : Ray) (position : WorldPosition) :
    Option (Direction × TextureCoords × ℝ) :=
  rustMinBy (fun r => r.2.2) (m.triangles.filterMap fun t => t.intersects ray position)

open Classical

/-- `Mesh::intersect` (lines 179-192): reject by the bounding box, then
brute-force over all triangles.  The stored tree `root` is not consulted. -/
noncomputable def intersect (m : Mesh) (ray : Ray) (position : WorldPosition) :
    Option (Direction × TextureCoords × ℝ) :=
  if m.bb.intersects ray position then bruteForce m ray position else none

/-- `Mesh` as a `Structure`: wrap the triple into an `Intersection`. -/
noncomputable def getIntersection (m : Mesh) (ray : Ray)
    (position : WorldPosition) : Option Intersection :=
  (m.intersect ray position).map fun result =>
    let hitPoint := ray.origin + ray.direction * result.2.2
    { distance := result.2.2
      hitPoint := hitPoint
      texCoord := result.2.1
      surfaceNormal := result.1 }

end Mesh

/-! ## Sphere and plane as `Structure` implementations -/

/-- `f64::atan2` on real numbers. -/
noncomputable def atan2 (y x : ℝ) : ℝ :=
  if 0 < x then Real.arctan (y / x)
  else if x < 0 then
    (if 0 ≤ y then Real.arctan (y / x) + Real.pi else Real.arctan (y / x) - Real.pi)
  else (if 0 < y then Real.pi / 2 else if y < 0 then -(Real.pi / 2) else 0)

namespace Sphere

/-- `Sphere::texture_coord`. -/
noncomputable def textureCoord (s : Sphere) (hitPoint : Point)
    (position : WorldPosition) (scale : ℝ) : TextureCoords :=
  let hitVec := hitPoint - position.position
  { x := (1 + atan2 hitVec.z hitVec.x / Real.pi) * 0.5
    y := Real.arccos (hitVec.y / (s.radius * scale)) / Real.pi }

noncomputable def getIntersection (s : Sphere) (ray : Ray)
    (position : WorldPosition) : Option Intersection :=
  (s.intersect ray position position.scale).map fun distance =>
    let hitPoint := ray.origin + ray.direction * distance
    { distance := distance
      hitPoint := hitPoint
      texCoord := s.textureCoord hitPoint position position.scale
      surfaceNormal := Sphere.surfaceNormal hitPoint position }

end Sphere

namespace Plane

noncomputable def getIntersection (p : Plane) (ray : Ray)
    (position : WorldPosition) : Option Intersection :=
  (p.intersect ray position).map fun distance =>
    let hitPoint := ray.origin + ray.direction * distance
    { distance := distance
      hitPoint := hitPoint
      texCoord := p.textureCoord hitPoint position
      surfaceNormal := -p.normal }

end Plane

/-! ## Materials, textures and objects (src/objects/mod.rs) -/

/-- An RGBA8 pixel as returned by `get_pixel`. -/
structure Rgba8 where
  r : ℕ
  g : ℕ
  b : ℕ
  a : ℕ

/-- `Color::from_rgba`. -/
noncomputable def Color.fromRgba (p : Rgba8) : Color :=
  ⟨(p.r : ℝ) / 255, (p.g : ℝ) / 255, (p.b : ℝ) / 255⟩

/-- A pixel-addressable 2D image (`DynamicImage` as consumed by the core). -/
structure Texture where
  width : ℕ
  height : ℕ
  getPixel : ℕ → ℕ → Rgba8

/-- Reinterpret a `u32` value as `i32` (`bound as i32`). -/
def toI32 (n : ℕ) : ℤ := ((n : ℤ) + 2 ^ 31) % 2 ^ 32 - 2 ^ 31

/-- Rust float-to-int truncation (toward zero). -/
noncomputable def rustTrunc (x : ℝ) : ℤ := if 0 ≤ x then ⌊x⌋ else ⌈x⌉

/-- Rust `as i32` on a float saturates at the type bounds. -/
noncomputable def satCastI32 (x : ℝ) : ℤ :=
  Max.max (-(2 ^ 31)) (Min.min (2 ^ 31 - 1) (rustTrunc x))

/-- Reinterpret an `i32` result as `u32` (`as u32`). -/
def toU32 (z : ℤ) : ℕ := (z % 2 ^ 32).toNat

/-- `wrap` (src/objects/mod.rs lines 35-44): wrap-repeat texture addressing.
`%` is Rust's truncated remainder, modelled by `Int.tmod`. -/
noncomputable def wrap (val : ℝ) (bound : ℕ) : ℕ :=
  let signedBound := toI32 bound
  let floatCoord := val * (bound : ℝ)
  let wrappedCoord := Int.tmod (satCastI32 floatCoord) signedBound
  if wrappedCoord < 0 then toU32 (wrappedCoord + signedBound) else toU32 wrappedCoord

inductive Coloration where
  | color (c : Color)
  | texture (t : Texture)

namespace Coloration

/-- `Coloration::color`: flat color, or wrap-addressed texture lookup. -/
noncomputable def colorAt (c : Coloration) (coords : TextureCoords) : Color :=
  match c with
  | color c => c
  | texture tex =>
    Color.fromRgba (tex.getPixel (wrap coords.x tex.width) (wrap coords.y tex.height))

end Coloration

inductive SurfaceType where
  | diffuse
  | reflective (reflectivity : ℝ)

structure Material where
  color : Coloration
  albedo : ℝ
  surface : SurfaceType

/-- The `Structure` capability: the primitives that implement it. -/
inductive Struct where
  | sphere (s : Sphere)
  | plane (p : Plane)
  | mesh (m : Mesh)

namespace Struct

noncomputable def getIntersection : Struct → Ray → WorldPosition → Option Intersection
  | sphere s => s.getIntersection
  | plane p => p.getIntersection
  | mesh m => m.getIntersection

end Struct

/-- `Object`: a primitive with a material and a world transform. -/
structure Object where
  material : Material
  position : WorldPosition
  struct : Struct

namespace Object

noncomputable def reflectivityAt (o : Object) : Option ℝ :=
  match o.material.surface with
  | SurfaceType.reflective reflectivity => some reflectivity
  | _ => none

noncomputable def colorAt (o : Object) (texCoord : TextureCoords) : Color :=
  o.material.color.colorAt texCoord

/-- `Object::intersect`. -/
noncomputable def intersect (o : Object) (ray : Ray) : Option IntersectionResult :=
  (o.struct.getIntersection ray o.position).map fun i =>
    IntersectionResult.create i (o.colorAt i.texCoord) o.material.albedo o.reflectivityAt

end Object

/-! ## Lights and scene (src/light.rs, src/scene.rs) -/

structure DirectionalLight where
  direction : Direction
  color : Color
  intensity : ℝ

inductive Light where
  | directional (d : DirectionalLight)

namespace Light

def direction : Light → Direction
  | directional d => d.direction

def intensity : Light → ℝ
  | directional d => d.intensity

def color : Light → Color
  | directional d => d.color

end Light

structure Scene where
  objects : List Object
  lights : List Light

namespace Scene

/-- `Scene::trace` (src/scene.rs lines 36-42): all object intersections, the
self-intersection filter `distance > 1e-13`, then `Iterator::min` under the
distance order (whose `cmp` treats incomparable distances as equal). -/
noncomputable def trace (s : Scene) (ray : Ray) : Option IntersectionResult :=
  rustMinBy (fun r => r.distance)
    (((s.objects.filterMap fun o => o.intersect ray).filter
      fun i => decide (i.distance > (1e-13 : ℝ))))

end Scene

/-- `SceneBuilder` (src/scene.rs lines 45-74): accumulates objects and
lights; `finish` is total — it performs no validation and has no error
path. -/
structure SceneBuilder where
  objects : List Object
  lights : List Light

namespace SceneBuilder

def new : SceneBuilder := ⟨[], []⟩

def addObject (b : SceneBuilder) (o : Object) : SceneBuilder :=
  ⟨b.objects ++ [o], b.lights⟩

def addLight (b : SceneBuilder) (l : Light) : SceneBuilder :=
  ⟨b.objects, b.lights ++ [l]⟩

def finish (b : SceneBuilder) : Scene := ⟨b.objects, b.lights⟩

end SceneBuilder

/-! ## Shading (src/render.rs) -/

/-- `shade_diffuse` (lines 17-37): sum over lights; an unshadowed light
contributes `hit_color * light_color * |N·L| * intensity * albedo / π` —
the power factor is the absolute value of the dot product. -/
noncomputable def shadeDiffuse (scene : Scene) (intersection : IntersectionResult) : Color :=
  scene.lights.foldl
    (fun color light =>
      let directionToLight := Vec3.normalize (-(light.direction))
      let shadowRay := Ray.createShadowRay directionToLight intersection
      let shadowTrace := scene.trace shadowRay
      if shadowTrace.isNone then
        let lightIntensity := light.intensity
        let lightPower := |Vec3.dot intersection.surfaceNormal directionToLight|
        let lightReflected := intersection.albedo / Real.pi
        color +
          intersection.color * light.color * lightPower * lightIntensity * lightReflected
      else color)
    (Color.fromRgb 0 0 0)

/-- `cast_ray` (lines 50-59) with `get_color` (lines 39-48) inlined at its
only recursive call site: the recursion is on the reflection ray with
`depth + 1`, cut off at depth 32. -/
noncomputable def castRay (scene : Scene) (ray : Ray) (depth : ℕ) : Color :=
  if h : 32 ≤ depth then Color.fromRgb 0 0 0
  else
    match scene.trace ray with
    | none => Color.fromRgb 0 0 0
    | some int =>
      let color := shadeDiffuse scene int
      match int.reflectivity with
      | none => color
      | some relf =>
        let reflectionRay := Ray.createReflection ray.direction int
        let reflectionColor := castRay scene reflectionRay (depth + 1) * relf
        color * (1 - relf) + reflectionColor
termination_by 32 - depth
decreasing_by simp_wf; omega

/-- `get_color` (lines 39-48): diffuse shading plus the attenuated
reflection contribution. -/
noncomputable def getColor (scene : Scene) (ray : Ray)
    (intersection : IntersectionResult) (depth : ℕ) : Color :=
  let color := shadeDiffuse scene intersection
  match intersection.reflectivity with
  | none => color
  | some relf =>
    let reflectionRay := Ray.createReflection ray.direction intersection
    let reflectionColor := castRay scene reflectionRay (depth + 1) * relf
    color * (1 - relf) + reflectionColor

end Raytracer

namespace Raytracer

/-- A `<`-guarded selection of the smaller of two reals is their minimum. -/
theorem ite_lt_eq_min (a b : ℝ) : (if a < b then a else b) = min a b := by
  rcases lt_or_ge a b with h | h
  · rw [if_pos h, min_eq_left h.le]
  · rw [if_neg (not_lt.mpr h), min_eq_right h]

/-- The squared center-to-ray distance `d2` in `Sphere::intersect`. -/
def sphereD2 (s : Sphere) (ray : Ray) (position : WorldPosition) : ℝ :=
  let l := position.position - ray.origin
  let adj2 := Vec3.dot l ray.direction
  Vec3.dot l l - adj2 ^ 2

/-- The squared scaled radius in `Sphere::intersect`. -/
def sphereRadius2 (s : Sphere) (scale : ℝ) : ℝ := (s.radius * scale) ^ 2

/-- The two roots `t0 = adj - thc`, `t1 = adj + thc` in `Sphere::intersect`. -/
noncomputable def sphereRoots (s : Sphere) (ray : Ray) (position : WorldPosition)
    (scale : ℝ) : ℝ × ℝ :=
  let l := position.position - ray.origin
  let adj2 := Vec3.dot l ray.direction
  let thc := Real.sqrt (sphereRadius2 s scale - sphereD2 s ray position)
  (adj2 - thc, adj2 + thc)

/-- A unit sphere centered at the world origin with a ray starting at the
center: the returned distance is the negative root. -/
noncomputable def originRay : Ray :=
  { origin := ⟨0, 0, 0⟩
    direction := ⟨0, 0, 1⟩
    invDirection := ⟨1 / 0, 1 / 0, 1⟩
    rayType := RayType.prime }

def originPosition : WorldPosition :=
  { position := ⟨0, 0, 0⟩, rotation := Quat.one, scale := 1 }

/-- C3, counterexample: for a ray starting at the center of a unit sphere the
code returns `Some(-1)` — a negative distance, although exactly one root is
negative and the claim demands the minimum of the non-negative roots. -/
theorem c3_counterexample :
    Sphere.intersect ⟨1⟩ originRay originPosition 1 = some (-1) ∧ (-1 : ℝ) < 0 := by
  refine ⟨?_, by norm_num⟩
  norm_num [Sphere.intersect, originRay, originPosition, Vec3.dot_def, Real.sqrt_one]

/-- C3, amended: when the discriminant test passes, `Sphere::intersect`
returns `None` when both roots are negative, and otherwise `Some(min t0 t1)`
— the smaller of the two roots, which is negative when the ray origin lies
inside the sphere. -/
theorem c3_sphere_intersect_min_root (s : Sphere) (ray : Ray)
    (position : WorldPosition) (scale : ℝ)
    (hd : ¬ sphereD2 s ray position > sphereRadius2 s scale) :
    (((sphereRoots s ray position scale).1 < 0 ∧ (sphereRoots s ray position scale).2 < 0) →
        Sphere.intersect s ray position scale = none) ∧
      (¬ ((sphereRoots s ray position scale).1 < 0 ∧ (sphereRoots s ray position scale).2 < 0) →
        Sphere.intersect s ray position scale =
          some (min (sphereRoots s ray position scale).1 (sphereRoots s ray position scale).2)) := by
  simp only [Sphere.intersect, sphereRoots, sphereD2, sphereRadius2] at *
  rw [if_neg hd]
  constructor
  · intro hneg
    rw [if_pos hneg]
  · intro hneg
    rw [if_neg hneg, ite_lt_eq_min]

noncomputable def c3wRay : Ray :=
  { origin := ⟨0, 0, 0⟩
    direction := ⟨0, 0, 1⟩
    invDirection := ⟨1 / 0, 1 / 0, 1⟩
    rayType := RayType.prime }

def c3wPos : WorldPosition :=
  { position := ⟨0, 0, 5⟩, rotation := Quat.one, scale := 1 }

/-- C3, witness: the amended theorem applied to a unit sphere at `(0,0,5)`
seen from the origin; both roots are non-negative and the smaller one is
returned. -/
theorem c3_witness :
    Sphere.intersect ⟨1⟩ c3wRay c3wPos 1 =
      some (min (sphereRoots ⟨1⟩ c3wRay c3wPos 1).1 (sphereRoots ⟨1⟩ c3wRay c3wPos 1).2) :=
  (c3_sphere_intersect_min_root ⟨1⟩ c3wRay c3wPos 1
      (by norm_num [sphereD2, sphereRadius2, Vec3.dot_def, c3wRay, c3wPos])).2
    (by norm_num [sphereRoots, sphereD2, sphereRadius2, Vec3.dot_def, c3wRay, c3wPos,
      Real.sqrt_one])

/-! ### C1: mesh acceleration-structure construction -/

/-- `shapesTriangles` over a replicated successfully-built shape. -/
theorem shapesTriangles_replicate (obj : Obj) (shape : ObjShape) (t : Triangle)
    (h : Mesh.buildShape obj shape = some (some t)) :
    ∀ n, Mesh.shapesTriangles obj (List.replicate n shape) =
      some (List.replicate n t) := by
  intro n
  induction n with
  | zero => rfl
  | succ n ih =>
    rw [List.replicate_succ, Mesh.shapesTriangles, h, ih, List.replicate_succ]

/-- An OBJ object with three vertices and 251 identical triangle faces. -/
def c1Obj : Obj :=
  { vertices := [⟨0, 0, 0⟩, ⟨1, 0, 0⟩, ⟨0, 1, 0⟩]
    normals := []
    geometry := [⟨List.replicate 251
      ⟨ObjPrimitive.triangle (0, none, none) (1, none, none) (2, none, none)⟩⟩] }

def c1Triangle : Triangle := ⟨⟨0, 0, 0⟩, ⟨1, 0, 0⟩, ⟨0, 1, 0⟩, none⟩

set_option maxRecDepth 4000

/-- C1, amended: `Mesh::create` never splits: for every parsed object it
accepts, the root is a single `Leaf` containing exactly the built
triangles, regardless of the triangle count; the 250-triangle threshold
and midpoint split of the claim do not exist in the code. -/
theorem c1_root_always_leaf (obj : Obj) (m : Mesh) (h : Mesh.create obj = some m) :
    m.root = MeshTreeNode.leaf m.triangles ∧
      Mesh.buildTriangles obj = some m.triangles := by
  rw [Mesh.create] at h
  cases hbb : Mesh.createBoundingBox obj with
  | none => rw [hbb] at h; simp at h
  | some bb =>
    cases htr : Mesh.buildTriangles obj with
    | none => rw [hbb, htr] at h; simp at h
    | some tris =>
      rw [hbb, htr] at h
      simp only [Option.some.injEq] at h
      subst h
      exact ⟨rfl, rfl⟩

/-- C1, counterexample: a mesh with 251 triangles — above the claimed leaf
threshold of 250 — still gets a single `Leaf` root; no inner `Node` is ever
built. -/
theorem c1_counterexample :
    ∃ m, Mesh.create c1Obj = some m ∧ m.triangles.length = 251 ∧
      m.root = MeshTreeNode.leaf m.triangles ∧ ∀ l r, m.root ≠ MeshTreeNode.node l r := by
  have htris : Mesh.buildTriangles c1Obj = some (List.replicate 251 c1Triangle) := by
    have h1 := shapesTriangles_replicate c1Obj
      ⟨ObjPrimitive.triangle (0, none, none) (1, none, none) (2, none, none)⟩
      c1Triangle rfl 251
    have hg : c1Obj.geometry = [⟨List.replicate 251
      ⟨ObjPrimitive.triangle (0, none, none) (1, none, none) (2, none, none)⟩⟩] := rfl
    rw [Mesh.buildTriangles, hg]
    simp only [Mesh.geometryTriangles, h1, List.append_nil]
  obtain ⟨bb, hbb⟩ : ∃ bb, Mesh.createBoundingBox c1Obj = some bb := ⟨_, rfl⟩
  have hm : Mesh.create c1Obj = some
      { mesh := c1Obj, bb := bb, triangles := List.replicate 251 c1Triangle,
        root := MeshTreeNode.leaf (List.replicate 251 c1Triangle) } := by
    rw [Mesh.create, hbb, htris]
  refine ⟨_, hm, List.length_replicate 251 c1Triangle, rfl, ?_⟩
  intro l r h
  exact absurd h (by simp)

/-- C1, witness: the amended theorem at a one-vertex, zero-triangle object. -/
theorem c1_witness :
    ∃ m, Mesh.create ⟨[⟨0, 0, 0⟩], [], []⟩ = some m ∧
      m.root = MeshTreeNode.leaf m.triangles ∧
      Mesh.buildTriangles ⟨[⟨0, 0, 0⟩], [], []⟩ = some m.triangles := by
  obtain ⟨bb, hbb⟩ : ∃ bb, Mesh.createBoundingBox ⟨[⟨0, 0, 0⟩], [], []⟩ = some bb := ⟨_, rfl⟩
  have h : Mesh.create ⟨[⟨0, 0, 0⟩], [], []⟩ = some
      { bb := bb, triangles := [], root := MeshTreeNode.leaf [],
        mesh := ⟨[⟨0, 0, 0⟩], [], []⟩ } := by
    rw [Mesh.create, hbb]
    rfl
  exact ⟨_, h, c1_root_always_leaf _ _ h⟩

/-! ### C7: misconfigured scene inputs -/

/-- Building one shape succeeds exactly when its table indices are in
range. -/
theorem buildShape_isSome_iff (obj : Obj) (s : ObjShape) :
    (Mesh.buildShape obj s).isSome = true ↔ Mesh.shapeIndicesValid obj s := by
  obtain ⟨prim⟩ := s
  cases prim with
  | other =>
    simp [Mesh.buildShape, Mesh.shapeIndicesValid]
  | triangle i1 i2 i3 =>
    simp only [Mesh.buildShape]
    constructor
    · intro h j1 j2 j3 hj
      simp only [ObjPrimitive.triangle.injEq] at hj
      obtain ⟨rfl, rfl, rfl⟩ := hj
      rcases hv1 : obj.vertices[i1.1]? with _ | v1
      · rw [hv1] at h; simp at h
      rcases hv2 : obj.vertices[i2.1]? with _ | v2
      · rw [hv1, hv2] at h; simp at h
      rcases hv3 : obj.vertices[i3.1]? with _ | v3
      · rw [hv1, hv2, hv3] at h; simp at h
      refine ⟨⟨(List.getElem?_eq_some_iff.mp hv1).1, (List.getElem?_eq_some_iff.mp hv2).1,
        (List.getElem?_eq_some_iff.mp hv3).1⟩, ?_⟩
      intro n1 n2 n3 hn1 hn2 hn3
      rw [hv1, hv2, hv3, hn1, hn2, hn3] at h
      dsimp only at h
      rcases hm1 : obj.normals[n1]? with _ | m1
      · rw [hm1] at h; simp at h
      rcases hm2 : obj.normals[n2]? with _ | m2
      · rw [hm1, hm2] at h; simp at h
      rcases hm3 : obj.normals[n3]? with _ | m3
      · rw [hm1, hm2, hm3] at h; simp at h
      exact ⟨(List.getElem?_eq_some_iff.mp hm1).1, (List.getElem?_eq_some_iff.mp hm2).1,
        (List.getElem?_eq_some_iff.mp hm3).1⟩
    · intro h
      obtain ⟨⟨hb1, hb2, hb3⟩, hns⟩ := h i1 i2 i3 rfl
      obtain ⟨v1, hv1⟩ : ∃ a, obj.vertices[i1.1]? = some a :=
        ⟨_, List.getElem?_eq_some_iff.mpr ⟨hb1, rfl⟩⟩
      obtain ⟨v2, hv2⟩ : ∃ a, obj.vertices[i2.1]? = some a :=
        ⟨_, List.getElem?_eq_some_iff.mpr ⟨hb2, rfl⟩⟩
      obtain ⟨v3, hv3⟩ : ∃ a, obj.vertices[i3.1]? = some a :=
        ⟨_, List.getElem?_eq_some_iff.mpr ⟨hb3, rfl⟩⟩
      rw [hv1, hv2, hv3]
      dsimp only
      rcases hn1 : i1.2.2 with _ | n1 <;> rcases hn2 : i2.2.2 with _ | n2 <;>
        rcases hn3 : i3.2.2 with _ | n3 <;> dsimp only
      all_goals try rfl
      obtain ⟨hc1, hc2, hc3⟩ := hns n1 n2 n3 hn1 hn2 hn3
      obtain ⟨m1, hm1⟩ : ∃ a, obj.normals[n1]? = some a :=
        ⟨_, List.getElem?_eq_some_iff.mpr ⟨hc1, rfl⟩⟩
      obtain ⟨m2, hm2⟩ : ∃ a, obj.normals[n2]? = some a :=
        ⟨_, List.getElem?_eq_some_iff.mpr ⟨hc2, rfl⟩⟩
      obtain ⟨m3, hm3⟩ : ∃ a, obj.normals[n3]? = some a :=
        ⟨_, List.getElem?_eq_some_iff.mpr ⟨hc3, rfl⟩⟩
      rw [hm1, hm2, hm3]
      simp

/-- Building a shape list succeeds exactly when every shape's indices are
in range. -/
theorem shapesTriangles_isSome_iff (obj : Obj) :
    ∀ shapes : List ObjShape, (Mesh.shapesTriangles obj shapes).isSome = true ↔
      ∀ s ∈ shapes, Mesh.shapeIndicesValid obj s := by
  intro shapes
  induction shapes with
  | nil => simp [Mesh.shapesTriangles]
  | cons s rest ih =>
    rw [List.forall_mem_cons, ← buildShape_isSome_iff, ← ih, Mesh.shapesTriangles]
    rcases hb : Mesh.buildShape obj s with _ | ot <;>
      rcases hr : Mesh.shapesTriangles obj rest with _ | ts
    · simp
    · simp
    · cases ot <;> simp
    · cases ot <;> simp

/-- Building all geometry groups succeeds exactly when every group's
shapes have in-range indices. -/
theorem geometryTriangles_isSome_iff (obj : Obj) :
    ∀ gs : List ObjGeometry, (Mesh.geometryTriangles obj gs).isSome = true ↔
      ∀ g ∈ gs, ∀ s ∈ g.shapes, Mesh.shapeIndicesValid obj s := by
  intro gs
  induction gs with
  | nil => simp [Mesh.geometryTriangles]
  | cons g rest ih =>
    rw [List.forall_mem_cons, ← shapesTriangles_isSome_iff, ← ih, Mesh.geometryTriangles]
    rcases hg : Mesh.shapesTriangles obj g.shapes with _ | ts <;>
      rcases hr : Mesh.geometryTriangles obj rest with _ | rs <;> simp

/-- `Mesh::build_triangles` panics exactly on an out-of-range index. -/
theorem buildTriangles_isSome_iff (obj : Obj) :
    (Mesh.buildTriangles obj).isSome = true ↔ Mesh.objIndicesValid obj :=
  geometryTriangles_isSome_iff obj obj.geometry

/-- `Mesh::create_bounding_box` panics exactly on an empty vertex table. -/
theorem createBoundingBox_none_iff (obj : Obj) :
    Mesh.createBoundingBox obj = none ↔ obj.vertices = [] := by
  rw [Mesh.createBoundingBox]
  cases h : obj.vertices with
  | nil => simp
  | cons v vs => simp

/-- An object with one vertex and one face whose vertex index `5` is out of
range. -/
def c7Obj : Obj :=
  ⟨[⟨0, 0, 0⟩], [],
    [⟨[⟨ObjPrimitive.triangle (5, none, none) (0, none, none) (0, none, none)⟩]⟩]⟩

/-- C7, counterexample: a parsed mesh object with zero vertices makes
`Mesh::create` panic (the `unwrap` of the missing first vertex — modelled
as `none`); an object with vertices but an out-of-range face index also
panics instead of producing an error; and a mesh that contains vertices
but no triangle at all is accepted without any error, with an empty
triangle list.  Construction is never rejected "with a descriptive error
returned from the builder". -/
theorem c7_counterexample :
    Mesh.create ⟨[], [], [⟨[⟨ObjPrimitive.triangle (0, none, none) (0, none, none)
        (0, none, none)⟩]⟩]⟩ = none ∧
      (Mesh.create c7Obj = none ∧ c7Obj.vertices ≠ []) ∧
      ∃ m, Mesh.create ⟨[⟨0, 0, 0⟩], [], []⟩ = some m ∧ m.triangles = [] := by
  refine ⟨rfl, ⟨rfl, by simp [c7Obj]⟩, ?_⟩
  obtain ⟨bb, hbb⟩ : ∃ bb, Mesh.createBoundingBox ⟨[⟨0, 0, 0⟩], [], []⟩ = some bb := ⟨_, rfl⟩
  exact ⟨_, by rw [Mesh.create, hbb]; rfl, rfl⟩

/-- C7, amended: `Mesh::create` fails — by panic (modelled as `none`), not
by a descriptive builder error — exactly when the parsed object has no
vertices or some face references an out-of-range vertex or normal index; a
mesh with zero valid triangles is accepted silently; and `SceneBuilder`
performs no validation: `finish` is total and simply repackages whatever
was accumulated. -/
theorem c7_create_none_iff (obj : Obj) :
    (Mesh.create obj = none ↔ obj.vertices = [] ∨ ¬ Mesh.objIndicesValid obj) ∧
      ∀ b : SceneBuilder, SceneBuilder.finish b = Scene.mk b.objects b.lights := by
  refine ⟨?_, fun b => rfl⟩
  rcases hbb : Mesh.createBoundingBox obj with _ | bb <;>
    rcases htr : Mesh.buildTriangles obj with _ | ts
  · exact iff_of_true (by rw [Mesh.create, hbb, htr])
      (Or.inl ((createBoundingBox_none_iff obj).mp hbb))
  · exact iff_of_true (by rw [Mesh.create, hbb, htr])
      (Or.inl ((createBoundingBox_none_iff obj).mp hbb))
  · refine iff_of_true (by rw [Mesh.create, hbb, htr]) (Or.inr fun hval => ?_)
    have h2 := (buildTriangles_isSome_iff obj).mpr hval
    rw [htr] at h2
    simp at h2
  · refine iff_of_false (fun hc => ?_) fun hor => ?_
    · rw [Mesh.create, hbb, htr] at hc
      simp at hc
    · rcases hor with hnil | hnv
      · have h2 := (createBoundingBox_none_iff obj).mpr hnil
        rw [hbb] at h2
        simp at h2
      · exact hnv ((buildTriangles_isSome_iff obj).mp (by rw [htr]; rfl))

/-! ### C5: the Möller-Trumbore determinant test -/

/-- The determinant `det = e1 · (D × e2)` computed by `Triangle::intersects`. -/
noncomputable def triDet (t : Triangle) (ray : Ray) (position : WorldPosition) : ℝ :=
  Vec3.dot (position.translate t.p2 - position.translate t.p1)
    (Vec3.cross ray.direction (position.translate t.p3 - position.translate t.p1))

/-- The unscaled barycentric `u = tvec · pvec` of `Triangle::intersects`. -/
noncomputable def triU (t : Triangle) (ray : Ray) (position : WorldPosition) : ℝ :=
  Vec3.dot (ray.origin - position.translate t.p1)
    (Vec3.cross ray.direction (position.translate t.p3 - position.translate t.p1))

/-- The unscaled barycentric `v = D · qvec` of `Triangle::intersects`. -/
noncomputable def triV (t : Triangle) (ray : Ray) (position : WorldPosition) : ℝ :=
  Vec3.dot ray.direction
    (Vec3.cross (ray.origin - position.translate t.p1)
      (position.translate t.p2 - position.translate t.p1))

/-- C5, counterexample: a ray meeting a triangle from the back side has
`det = -16 ≤ -1e-13`, and the code rejects it (the determinant test is
single-sided `det < EPSILON`, not `|det| < EPSILON`); the same triangle
with flipped orientation is accepted. -/
theorem c5_counterexample :
    triDet ⟨⟨-1, -1, 1⟩, ⟨3, -1, 1⟩, ⟨-1, 3, 1⟩, none⟩ originRay originPosition = -16 ∧
      Triangle.intersects ⟨⟨-1, -1, 1⟩, ⟨3, -1, 1⟩, ⟨-1, 3, 1⟩, none⟩ originRay
        originPosition = none ∧
      (Triangle.intersects ⟨⟨-1, -1, 1⟩, ⟨-1, 3, 1⟩, ⟨3, -1, 1⟩, none⟩ originRay
        originPosition).isSome = true := by
  refine ⟨?_, ?_, ?_⟩
  · norm_num [triDet, WorldPosition.translate, Quat.rotatePoint, Quat.rotateVector,
      Quat.one, Vec3.zero, Vec3.dot_def, originRay, originPosition]
  · norm_num [Triangle.intersects, EPSILON, WorldPosition.translate, Quat.rotatePoint,
      Quat.rotateVector, Quat.one, Vec3.zero, Vec3.dot_def, originRay, originPosition]
  · norm_num [Triangle.intersects, EPSILON, WorldPosition.translate, Quat.rotatePoint,
      Quat.rotateVector, Quat.one, Vec3.zero, Vec3.dot_def, originRay, originPosition]

/-- C5, amended: `Triangle::intersects` rejects exactly when `det < 1e-13`
or a scaled barycentric test fails; in particular every back-facing ray
(`det ≤ -1e-13`) is rejected — the determinant test is single-sided. -/
theorem c5_reject_iff (t : Triangle) (ray : Ray) (position : WorldPosition) :
    Triangle.intersects t ray position = none ↔
      (triDet t ray position < EPSILON ∨
        triU t ray position < 0 ∨ triU t ray position > triDet t ray position ∨
        triV t ray position < 0 ∨
        triU t ray position + triV t ray position > triDet t ray position) := by
  simp only [Triangle.intersects, triDet, triU, triV]
  split_ifs with h1 h2 h3
  · simp [h1]
  · simp only [true_iff]
    right
    exact h2.elim Or.inl (fun h => Or.inr (Or.inl h))
  · simp only [true_iff]
    right
    right
    right
    exact h3
  · simp only [reduceCtorEq, false_iff, not_or]
    push_neg at h2 h3
    exact ⟨not_lt.mpr (not_lt.mp h1), not_lt.mpr h2.1, not_lt.mpr h2.2,
      not_lt.mpr h3.1, not_lt.mpr h3.2⟩

/-! ### C4: diffuse light power -/

def c4Light : DirectionalLight := ⟨⟨0, 1, 0⟩, ⟨1, 1, 1⟩, 1⟩

def c4Scene : Scene := ⟨[], [Light.directional c4Light]⟩

def c4Inter : IntersectionResult := ⟨1, ⟨0, 0, 0⟩, ⟨0, 1, 0⟩, ⟨1, ⟨1, 1, 1⟩, none⟩⟩

/-- C4, counterexample: a surface facing away from the light
(`N · L = -1 < 0`, no shadow) receives the full contribution `1/π` per
channel instead of the zero the claim's `max(0, ·)` clamp would give: the
code takes the absolute value of the dot product. -/
theorem c4_counterexample :
    Vec3.dot c4Inter.surfaceNormal (Vec3.normalize (-c4Light.direction)) = -1 ∧
      shadeDiffuse c4Scene c4Inter =
        Color.fromRgb (1 / Real.pi) (1 / Real.pi) (1 / Real.pi) ∧
      shadeDiffuse c4Scene c4Inter ≠ Color.fromRgb 0 0 0 := by
  have hdot : Vec3.dot c4Inter.surfaceNormal (Vec3.normalize (-c4Light.direction)) = -1 := by
    norm_num [c4Inter, c4Light, Vec3.dot_def, Vec3.normalize, Vec3.magnitude,
      Vec3.scale, Real.sqrt_one]
  have hval : shadeDiffuse c4Scene c4Inter =
      Color.fromRgb (1 / Real.pi) (1 / Real.pi) (1 / Real.pi) := by
    unfold shadeDiffuse
    simp only [c4Scene, List.foldl_cons, List.foldl_nil]
    norm_num [Light.direction, Light.intensity, Light.color, Scene.trace, rustMinBy,
      c4Light, c4Inter, IntersectionResult.color, IntersectionResult.albedo]
    ext <;> norm_num [Vec3.dot_def, Vec3.normalize, Vec3.magnitude, Vec3.scale,
      Real.sqrt_one]
  refine ⟨hdot, hval, ?_⟩
  rw [hval]
  intro h
  have := congrArg Color.red h
  simp at this
  exact absurd this (by positivity)

/-- C4, amended: for a scene with one directional light and an unshadowed
hit, the diffuse contribution is
`hit.color * light.color * |N·L| * intensity * (albedo / π)` — the power
factor is the absolute value of the dot product, so a surface facing away
from the light receives the same contribution as one facing it. -/
theorem c4_shade_diffuse_abs (scene : Scene) (inter : IntersectionResult)
    (d : Direction) (c : Color) (i : ℝ)
    (hl : scene.lights = [Light.directional ⟨d, c, i⟩])
    (hsh : scene.trace (Ray.createShadowRay (Vec3.normalize (-d)) inter) = none) :
    shadeDiffuse scene inter =
      inter.color * c * |Vec3.dot inter.surfaceNormal (Vec3.normalize (-d))| * i *
        (inter.albedo / Real.pi) := by
  unfold shadeDiffuse
  rw [hl]
  simp only [List.foldl_cons, List.foldl_nil, Light.direction, Light.intensity,
    Light.color, hsh, Option.isNone_none, if_true]
  exact Color.zero_add_color _

/-- C4, witness: the amended formula at the facing-away configuration. -/
theorem c4_witness :
    shadeDiffuse c4Scene c4Inter =
      c4Inter.color * c4Light.color *
        |Vec3.dot c4Inter.surfaceNormal (Vec3.normalize (-c4Light.direction))| *
        c4Light.intensity * (c4Inter.albedo / Real.pi) :=
  c4_shade_diffuse_abs c4Scene c4Inter c4Light.direction c4Light.color c4Light.intensity
    rfl rfl

/-! ### C9: termination and depth cap of the reflection recursion -/

/-- An element produced by the first-wins minimum fold is in the list (or
was the initial accumulator). -/
theorem foldl_min_mem {α : Type} (key : α → ℝ) :
    ∀ (l : List α) (acc : Option α) (a : α),
      l.foldl
        (fun acc x =>
          match acc with
          | none => some x
          | some b => if key x < key b then some x else some b) acc = some a →
      acc = some a ∨ a ∈ l := by
  intro l
  induction l with
  | nil => intro acc a h; exact Or.inl h
  | cons x xs ih =>
    intro acc a h
    rcases ih _ a h with h' | h'
    · cases acc with
      | none =>
        simp only [Option.some.injEq] at h'
        exact Or.inr (h' ▸ List.mem_cons_self x xs)
      | some b =>
        simp only at h'
        split_ifs at h' with hk <;> simp only [Option.some.injEq] at h'
        · exact Or.inr (h' ▸ List.mem_cons_self x xs)
        · exact Or.inl (by rw [h'])
    · exact Or.inr (List.mem_cons_of_mem x h')

/-- `rustMinBy` returns an element of its input list. -/
theorem rustMinBy_mem {α : Type} (key : α → ℝ) (l : List α) (a : α)
    (h : rustMinBy key l = some a) : a ∈ l := by
  rcases foldl_min_mem key l none a h with h' | h'
  · exact absurd h' (by simp)
  · exact h'

/-- Every result of `Scene::trace` comes from some object of the scene. -/
theorem trace_mem (s : Scene) (ray : Ray) (r : IntersectionResult)
    (h : s.trace ray = some r) : ∃ o ∈ s.objects, o.intersect ray = some r := by
  have hmem := rustMinBy_mem _ _ _ h
  rw [List.mem_filter] at hmem
  rcases List.mem_filterMap.mp hmem.1 with ⟨o, ho, hint⟩
  exact ⟨o, ho, hint⟩

/-- In a scene whose surfaces all have reflectivity 1 and which has no
lights, `cast_ray` is black at every depth: the local term is cancelled by
the factor `1 - r = 0`, and the recursion bottoms out at depth 32. -/
theorem castRay_all_reflective_black (scene : Scene)
    (hlights : scene.lights = [])
    (hrefl : ∀ o ∈ scene.objects, o.material.surface = SurfaceType.reflective 1) :
    ∀ (n : ℕ) (ray : Ray) (depth : ℕ), 32 - depth ≤ n →
      castRay scene ray depth = Color.fromRgb 0 0 0 := by
  intro n
  induction n with
  | zero =>
    intro ray depth hn
    rw [castRay, dif_pos (by omega)]
  | succ n ih =>
    intro ray depth hn
    by_cases hd : 32 ≤ depth
    · rw [castRay, dif_pos hd]
    · rw [castRay, dif_neg hd]
      cases htr : scene.trace ray with
      | none => rfl
      | some int =>
        have hshade : shadeDiffuse scene int = Color.fromRgb 0 0 0 := by
          unfold shadeDiffuse
          rw [hlights]
          rfl
        obtain ⟨o, ho, hint⟩ := trace_mem scene ray int htr
        have hsurf : int.surface.reflectivity = some 1 := by
          unfold Object.intersect at hint
          cases hget : o.struct.getIntersection ray o.position with
          | none => rw [hget] at hint; simp at hint
          | some i =>
            rw [hget, Option.map_some'] at hint
            cases hint
            simp [IntersectionResult.create, Object.reflectivityAt, hrefl o ho]
        have hreflv : int.reflectivity = some 1 := by
          unfold IntersectionResult.reflectivity
          rw [hsurf]
          norm_num
        simp only [hshade, hreflv]
        rw [ih (Ray.createReflection ray.direction int) (depth + 1) (by omega)]
        ext <;> simp

/-- C9: `cast_ray` is total (it is definable by recursion on `32 - depth`):
it returns black as soon as `depth ≥ 32`, returns black on a trace miss,
and in a lightless scene whose every surface has reflectivity 1 it returns
black at every depth — the recursion is bounded by the depth cap even
though every hit recurses. -/
theorem c9_cast_ray_depth_cap (scene : Scene) (ray : Ray) (depth : ℕ) :
    (32 ≤ depth → castRay scene ray depth = Color.fromRgb 0 0 0) ∧
      (scene.trace ray = none → castRay scene ray depth = Color.fromRgb 0 0 0) ∧
      (scene.lights = [] →
        (∀ o ∈ scene.objects, o.material.surface = SurfaceType.reflective 1) →
        castRay scene ray depth = Color.fromRgb 0 0 0) := by
  refine ⟨fun h => by rw [castRay, dif_pos h], fun h => ?_,
    fun hl hr => castRay_all_reflective_black scene hl hr 32 ray depth (by omega)⟩
  by_cases hd : 32 ≤ depth
  · rw [castRay, dif_pos hd]
  · rw [castRay, dif_neg hd, h]

/-- C9, witness: the three ways to be black, at the empty scene. -/
theorem c9_witness :
    castRay ⟨[], []⟩ originRay 40 = Color.fromRgb 0 0 0 ∧
      castRay ⟨[], []⟩ originRay 0 = Color.fromRgb 0 0 0 ∧
      castRay ⟨[], []⟩ originRay 5 = Color.fromRgb 0 0 0 :=
  ⟨(c9_cast_ray_depth_cap ⟨[], []⟩ originRay 40).1 (by norm_num),
    (c9_cast_ray_depth_cap ⟨[], []⟩ originRay 0).2.1 rfl,
    (c9_cast_ray_depth_cap ⟨[], []⟩ originRay 5).2.2 rfl (by simp)⟩

/-! ### C6: nearest intersection and tie-breaking -/

/-- The spec's selection rule, stated recursively: the minimum by key, with
ties broken in favor of the earlier element. -/
noncomputable def specFirstMin {α : Type} (key : α → ℝ) : List α → Option α
  | [] => none
  | x :: xs =>
    match specFirstMin key xs with
    | none => some x
    | some m => if key x ≤ key m then some x else some m

/-- `specFirstMin` of a non-empty list is `some`. -/
theorem specFirstMin_ne_none {α : Type} (key : α → ℝ) (x : α) (xs : List α) :
    specFirstMin key (x :: xs) ≠ none := by
  simp only [specFirstMin]
  cases specFirstMin key xs with
  | none => simp
  | some m =>
    dsimp only
    split_ifs <;> simp

/-- `specFirstMin` selects an element with a minimal key. -/
theorem specFirstMin_le {α : Type} (key : α → ℝ) :
    ∀ (l : List α) (m : α), specFirstMin key l = some m → ∀ y ∈ l, key m ≤ key y := by
  intro l
  induction l with
  | nil => simp [specFirstMin]
  | cons x xs ih =>
    intro m hm y hy
    simp only [specFirstMin] at hm
    cases hx : specFirstMin key xs with
    | none =>
      rw [hx] at hm
      dsimp only at hm
      simp only [Option.some.injEq] at hm
      subst hm
      rcases List.mem_cons.mp hy with rfl | hy'
      · exact le_refl _
      · cases xs with
        | nil => simp at hy'
        | cons z zs => exact absurd hx (specFirstMin_ne_none key z zs)
    | some m' =>
      rw [hx] at hm
      dsimp only at hm
      split_ifs at hm with h1 <;> simp only [Option.some.injEq] at hm <;> subst hm
      · rcases List.mem_cons.mp hy with rfl | hy'
        · exact le_refl _
        · exact le_trans h1 (ih m' hx y hy')
      · rcases List.mem_cons.mp hy with rfl | hy'
        · exact le_of_lt (not_le.mp h1)
        · exact ih m' hx y hy'

/-- The first-wins minimum fold started at `some x` computes
`specFirstMin` of the list with `x` prepended. -/
theorem foldl_min_eq_specFirstMin {α : Type} (key : α → ℝ) :
    ∀ (l : List α) (x : α),
      l.foldl
        (fun acc e =>
          match acc with
          | none => some e
          | some b => if key e < key b then some e else some b) (some x) =
        specFirstMin key (x :: l) := by
  intro l
  induction l with
  | nil => intro x; rfl
  | cons e es ih =>
    intro x
    show es.foldl _ (if key e < key x then some e else some x) = _
    by_cases hk : key e < key x
    · rw [if_pos hk, ih e]
      simp only [specFirstMin]
      cases hm : specFirstMin key es with
      | none =>
        dsimp only
        rw [if_neg (not_le.mpr hk)]
      | some m =>
        dsimp only
        by_cases h1 : key e ≤ key m
        · rw [if_pos h1]
          dsimp only
          rw [if_neg (not_le.mpr hk)]
        · rw [if_neg h1]
          dsimp only
          rw [if_neg (not_le.mpr (lt_trans (not_le.mp h1) hk))]
    · rw [if_neg hk, ih x]
      have hxe : key x ≤ key e := not_lt.mp hk
      simp only [specFirstMin]
      cases hm : specFirstMin key es with
      | none =>
        dsimp only
        rw [if_pos hxe]
      | some m =>
        dsimp only
        by_cases h2 : key e ≤ key m
        · rw [if_pos h2]
          dsimp only
          rw [if_pos hxe, if_pos (le_trans hxe h2)]
        · rw [if_neg h2]

/-- Rust's `Iterator::min` equals the spec's first-minimum selection. -/
theorem rustMinBy_eq_specFirstMin {α : Type} (key : α → ℝ) (l : List α) :
    rustMinBy key l = specFirstMin key l := by
  cases l with
  | nil => rfl
  | cons x xs => exact foldl_min_eq_specFirstMin key xs x

/-- The candidate intersections of `Scene::trace`: every object's
intersection, kept when its distance exceeds `1e-13`. -/
noncomputable def traceCandidates (s : Scene) (ray : Ray) : List IntersectionResult :=
  (s.objects.filterMap fun o => o.intersect ray).filter
    fun i => decide (i.distance > (1e-13 : ℝ))

/-- `Scene.trace` as the spec words it: among the candidates, in insertion
order, the first one achieving the minimal distance. -/
noncomputable def specTrace (s : Scene) (ray : Ray) : Option IntersectionResult :=
  specFirstMin (fun r => r.distance) (traceCandidates s ray)

/-- C6: `Scene::trace` returns exactly the spec's choice: the candidate of
minimal distance (`None` when there is none), with ties broken in favor of
the object inserted earlier. -/
theorem c6_trace_eq_specTrace (s : Scene) (ray : Ray) :
    Scene.trace s ray = specTrace s ray := by
  unfold Scene.trace specTrace traceCandidates
  exact rustMinBy_eq_specFirstMin _ _

/-! ### C8: the AABB slab test with infinite inverse-direction components -/

/-- An inverse direction whose components may be `±∞` (`1/0` in `f64`). -/
structure EVec3 where
  x : EReal
  y : EReal
  z : EReal

/-- The `tmin` accumulation of `BoundingBox::intersects` (lines 17-33),
over extended reals, starting from the X axis. -/
noncomputable def slabTminE (pmin pmax origin : Vec3) (inv : EVec3) : EReal :=
  let tx1 := ((pmin.x - origin.x : ℝ) : EReal) * inv.x
  let tx2 := ((pmax.x - origin.x : ℝ) : EReal) * inv.x
  let ty1 := ((pmin.y - origin.y : ℝ) : EReal) * inv.y
  let ty2 := ((pmax.y - origin.y : ℝ) : EReal) * inv.y
  let tz1 := ((pmin.z - origin.z : ℝ) : EReal) * inv.z
  let tz2 := ((pmax.z - origin.z : ℝ) : EReal) * inv.z
  Max.max (Max.max (Min.min tx1 tx2) (Min.min ty1 ty2)) (Min.min tz1 tz2)

/-- The `tmax` accumulation of `BoundingBox::intersects`, over extended
reals. -/
noncomputable def slabTmaxE (pmin pmax origin : Vec3) (inv : EVec3) : EReal :=
  let tx1 := ((pmin.x - origin.x : ℝ) : EReal) * inv.x
  let tx2 := ((pmax.x - origin.x : ℝ) : EReal) * inv.x
  let ty1 := ((pmin.y - origin.y : ℝ) : EReal) * inv.y
  let ty2 := ((pmax.y - origin.y : ℝ) : EReal) * inv.y
  let tz1 := ((pmin.z - origin.z : ℝ) : EReal) * inv.z
  let tz2 := ((pmax.z - origin.z : ℝ) : EReal) * inv.z
  Min.min (Min.min (Max.max tx1 tx2) (Max.max ty1 ty2)) (Max.max tz1 tz2)

/-- The slab test of `BoundingBox::intersects` (line 35), over extended
reals: `tmax >= tmin && tmax >= 0`. -/
noncomputable def slabTestE (pmin pmax origin : Vec3) (inv : EVec3) : Prop :=
  slabTmaxE pmin pmax origin inv ≥ slabTminE pmin pmax origin inv ∧
    slabTmaxE pmin pmax origin inv ≥ 0

/-- Coercion commutes with binary minimum into `EReal`. -/
theorem ecoe_min (a b : ℝ) : ((Min.min a b : ℝ) : EReal) = Min.min (a : EReal) (b : EReal) := by
  rcases le_total a b with h | h
  · rw [min_eq_left h, min_eq_left (EReal.coe_le_coe_iff.mpr h)]
  · rw [min_eq_right h, min_eq_right (EReal.coe_le_coe_iff.mpr h)]

/-- Coercion commutes with binary maximum into `EReal`. -/
theorem ecoe_max (a b : ℝ) : ((Max.max a b : ℝ) : EReal) = Max.max (a : EReal) (b : EReal) := by
  rcases le_total a b with h | h
  · rw [max_eq_right h, max_eq_right (EReal.coe_le_coe_iff.mpr h)]
  · rw [max_eq_left h, max_eq_left (EReal.coe_le_coe_iff.mpr h)]

/-- With finite inverse-direction components, the extended slab test agrees
with the real-valued `BoundingBox::intersects`. -/
theorem slabTestE_agrees_finite (bb : BoundingBox) (ray : Ray)
    (position : WorldPosition) :
    slabTestE (position.translate bb.min) (position.translate bb.max) ray.origin
        ⟨(ray.invDirection.x : ℝ), (ray.invDirection.y : ℝ), (ray.invDirection.z : ℝ)⟩ ↔
      bb.intersects ray position := by
  unfold slabTestE slabTminE slabTmaxE BoundingBox.intersects
  simp only [← EReal.coe_mul, ← ecoe_min, ← ecoe_max]
  rw [show ((0 : EReal) = ((0 : ℝ) : EReal)) from rfl]
  constructor
  · intro ⟨h1, h2⟩
    exact ⟨EReal.coe_le_coe_iff.mp h1, EReal.coe_le_coe_iff.mp h2⟩
  · intro ⟨h1, h2⟩
    exact ⟨EReal.coe_le_coe_iff.mpr h1, EReal.coe_le_coe_iff.mpr h2⟩

/-- C8: the slab test over extended reals is the well-defined predicate
`tmax ≥ tmin ∧ tmax ≥ 0` (by construction), agrees with the real-valued
test whenever the inverse direction is finite, and a ray parallel to the X
slab (`inv.x = ±∞`) whose origin lies outside that slab is rejected,
provided some other axis contributes a finite slab time (`inv.z` finite
here). -/
theorem c8_slab_test_infinite (pmin pmax origin : Vec3) (inv : EVec3)
    (hpar : inv.x = ⊤ ∨ inv.x = ⊥)
    (hout : origin.x < pmin.x ∨ pmax.x < origin.x)
    (hbox : pmin.x ≤ pmax.x)
    (hz : ∃ r : ℝ, inv.z = (r : EReal)) :
    (slabTestE pmin pmax origin inv ↔
        slabTmaxE pmin pmax origin inv ≥ slabTminE pmin pmax origin inv ∧
          slabTmaxE pmin pmax origin inv ≥ 0) ∧
      (∀ (bb : BoundingBox) (ray : Ray) (position : WorldPosition),
        slabTestE (position.translate bb.min) (position.translate bb.max) ray.origin
            ⟨(ray.invDirection.x : ℝ), (ray.invDirection.y : ℝ),
              (ray.invDirection.z : ℝ)⟩ ↔
          bb.intersects ray position) ∧
      ¬ slabTestE pmin pmax origin inv := by
  refine ⟨Iff.rfl, slabTestE_agrees_finite, ?_⟩
  obtain ⟨rz, hrz⟩ := hz
  have reject_bot :
      ((pmin.x - origin.x : ℝ) : EReal) * inv.x = ⊥ →
      ((pmax.x - origin.x : ℝ) : EReal) * inv.x = ⊥ →
      ¬ slabTestE pmin pmax origin inv := by
    intro h1 h2 htest
    have hmax : slabTmaxE pmin pmax origin inv = ⊥ := by
      simp only [slabTmaxE]
      rw [h1, h2, max_self, min_eq_left bot_le, min_eq_left bot_le]
    have h0 := htest.2
    rw [hmax] at h0
    exact absurd h0 (not_le.mpr EReal.bot_lt_zero)
  have reject_top :
      ((pmin.x - origin.x : ℝ) : EReal) * inv.x = ⊤ →
      ((pmax.x - origin.x : ℝ) : EReal) * inv.x = ⊤ →
      ¬ slabTestE pmin pmax origin inv := by
    intro h1 h2 htest
    have hmin : slabTminE pmin pmax origin inv = ⊤ := by
      simp only [slabTminE]
      rw [h1, h2, min_self, max_eq_left le_top, max_eq_left le_top]
    have hfin : slabTmaxE pmin pmax origin inv ≤
        ((Max.max ((pmin.z - origin.z) * rz) ((pmax.z - origin.z) * rz) : ℝ) : EReal) := by
      simp only [slabTmaxE]
      rw [hrz, ← EReal.coe_mul, ← EReal.coe_mul, ← ecoe_max]
      exact min_le_right _ _
    have h3 := htest.1
    rw [hmin] at h3
    have h4 := le_trans h3 hfin
    exact absurd (top_le_iff.mp h4) (EReal.coe_ne_top _)
  rcases hpar with hx | hx
  · rcases hout with h | h
    · exact reject_top
        (by rw [hx]; exact EReal.coe_mul_top_of_pos (by linarith))
        (by rw [hx]; exact EReal.coe_mul_top_of_pos (by linarith))
    · exact reject_bot
        (by rw [hx]; exact EReal.coe_mul_top_of_neg (by linarith))
        (by rw [hx]; exact EReal.coe_mul_top_of_neg (by linarith))
  · rcases hout with h | h
    · exact reject_bot
        (by rw [hx]; exact EReal.coe_mul_bot_of_pos (by linarith))
        (by rw [hx]; exact EReal.coe_mul_bot_of_pos (by linarith))
    · exact reject_top
        (by rw [hx]; exact EReal.coe_mul_bot_of_neg (by linarith))
        (by rw [hx]; exact EReal.coe_mul_bot_of_neg (by linarith))

/-- C8, witness: the box `[1,2]^3` seen from the origin with
`inv = (+∞, 1, 1)` — parallel to the X slab and outside it — is rejected. -/
theorem c8_witness :
    ¬ slabTestE ⟨1, 1, 1⟩ ⟨2, 2, 2⟩ ⟨0, 0, 0⟩ ⟨⊤, ((1 : ℝ) : EReal), ((1 : ℝ) : EReal)⟩ :=
  (c8_slab_test_infinite ⟨1, 1, 1⟩ ⟨2, 2, 2⟩ ⟨0, 0, 0⟩
      ⟨⊤, ((1 : ℝ) : EReal), ((1 : ℝ) : EReal)⟩
      (Or.inl rfl) (Or.inl (by norm_num)) (by norm_num) ⟨1, rfl⟩).2.2

/-! ### C2: the AABB-guarded mesh lookup versus brute force -/

/-- Cramer-rule identity behind Möller-Trumbore, x coordinate:
`u·e1 + v·e2 - t·D = det·tvec` holds for the unscaled `u`, `v`, `t`. -/
theorem mt_cramer_x (e1 e2 d tvec : Vec3) :
    Vec3.dot tvec (Vec3.cross d e2) * e1.x + Vec3.dot d (Vec3.cross tvec e1) * e2.x -
        Vec3.dot e2 (Vec3.cross tvec e1) * d.x =
      Vec3.dot e1 (Vec3.cross d e2) * tvec.x := by
  simp only [Vec3.dot_def, Vec3.cross_x, Vec3.cross_y, Vec3.cross_z]
  ring

/-- Cramer-rule identity behind Möller-Trumbore, y coordinate. -/
theorem mt_cramer_y (e1 e2 d tvec : Vec3) :
    Vec3.dot tvec (Vec3.cross d e2) * e1.y + Vec3.dot d (Vec3.cross tvec e1) * e2.y -
        Vec3.dot e2 (Vec3.cross tvec e1) * d.y =
      Vec3.dot e1 (Vec3.cross d e2) * tvec.y := by
  simp only [Vec3.dot_def, Vec3.cross_x, Vec3.cross_y, Vec3.cross_z]
  ring

/-- Cramer-rule identity behind Möller-Trumbore, z coordinate. -/
theorem mt_cramer_z (e1 e2 d tvec : Vec3) :
    Vec3.dot tvec (Vec3.cross d e2) * e1.z + Vec3.dot d (Vec3.cross tvec e1) * e2.z -
        Vec3.dot e2 (Vec3.cross tvec e1) * d.z =
      Vec3.dot e1 (Vec3.cross d e2) * tvec.z := by
  simp only [Vec3.dot_def, Vec3.cross_x, Vec3.cross_y, Vec3.cross_z]
  ring

/-- A convex combination of three reals lies between their minimum and
maximum. -/
theorem convex_coord_bounds (p0 p1 p2 a b h : ℝ)
    (ha : 0 ≤ a) (hb : 0 ≤ b) (hab : a + b ≤ 1)
    (hh : h = (1 - a - b) * p0 + a * p1 + b * p2) :
    Min.min (Min.min p0 p1) p2 ≤ h ∧ h ≤ Max.max (Max.max p0 p1) p2 := by
  subst hh
  constructor
  · have h0 : Min.min (Min.min p0 p1) p2 ≤ p0 := le_trans (min_le_left _ _) (min_le_left _ _)
    have h1 : Min.min (Min.min p0 p1) p2 ≤ p1 := le_trans (min_le_left _ _) (min_le_right _ _)
    have h2 : Min.min (Min.min p0 p1) p2 ≤ p2 := min_le_right _ _
    nlinarith [mul_le_mul_of_nonneg_left h0 (by linarith : (0:ℝ) ≤ 1 - a - b),
      mul_le_mul_of_nonneg_left h1 ha, mul_le_mul_of_nonneg_left h2 hb]
  · have h0 : p0 ≤ Max.max (Max.max p0 p1) p2 := le_trans (le_max_left _ _) (le_max_left _ _)
    have h1 : p1 ≤ Max.max (Max.max p0 p1) p2 := le_trans (le_max_right _ _) (le_max_left _ _)
    have h2 : p2 ≤ Max.max (Max.max p0 p1) p2 := le_max_right _ _
    nlinarith [mul_le_mul_of_nonneg_left h0 (by linarith : (0:ℝ) ≤ 1 - a - b),
      mul_le_mul_of_nonneg_left h1 ha, mul_le_mul_of_nonneg_left h2 hb]

/-- One axis of the slab test: when the hit parameter `t` keeps the point
inside the slab `[a, b]` and the direction component is nonzero, `t` lies
between the two slab times. -/
theorem slab_axis_bounds (a b o d t : ℝ) (hd : d ≠ 0)
    (h1 : a ≤ o + d * t) (h2 : o + d * t ≤ b) :
    Min.min ((a - o) * (1 / d)) ((b - o) * (1 / d)) ≤ t ∧
      t ≤ Max.max ((a - o) * (1 / d)) ((b - o) * (1 / d)) := by
  rcases lt_or_gt_of_ne hd with hneg | hpos
  · have ht1 : (b - o) * (1 / d) ≤ t := by
      rw [mul_one_div]
      rw [div_le_iff_of_neg hneg]
      linarith
    have ht2 : t ≤ (a - o) * (1 / d) := by
      rw [mul_one_div]
      rw [le_div_iff_of_neg hneg]
      linarith
    exact ⟨le_trans (min_le_right _ _) ht1, le_trans ht2 (le_max_left _ _)⟩
  · have ht1 : (a - o) * (1 / d) ≤ t := by
      rw [mul_one_div]
      rw [div_le_iff₀ hpos]
      linarith
    have ht2 : t ≤ (b - o) * (1 / d) := by
      rw [mul_one_div]
      rw [le_div_iff₀ hpos]
      linarith
    exact ⟨le_trans (min_le_left _ _) ht1, le_trans ht2 (le_max_right _ _)⟩

/-- A successful Möller-Trumbore hit lies, coordinatewise, between the
minimum and maximum of the three translated triangle corners: the hit point
`O + t·D` is the barycentric combination of the corners. -/
theorem triangle_hit_in_corner_box (tr : Triangle) (ray : Ray)
    (position : WorldPosition) (n : Direction) (tc : TextureCoords) (tv : ℝ)
    (h : tr.intersects ray position = some (n, tc, tv)) :
    (Min.min (Min.min (position.translate tr.p1).x (position.translate tr.p2).x)
        (position.translate tr.p3).x ≤ ray.origin.x + ray.direction.x * tv ∧
      ray.origin.x + ray.direction.x * tv ≤
        Max.max (Max.max (position.translate tr.p1).x (position.translate tr.p2).x)
          (position.translate tr.p3).x) ∧
    (Min.min (Min.min (position.translate tr.p1).y (position.translate tr.p2).y)
        (position.translate tr.p3).y ≤ ray.origin.y + ray.direction.y * tv ∧
      ray.origin.y + ray.direction.y * tv ≤
        Max.max (Max.max (position.translate tr.p1).y (position.translate tr.p2).y)
          (position.translate tr.p3).y) ∧
    (Min.min (Min.min (position.translate tr.p1).z (position.translate tr.p2).z)
        (position.translate tr.p3).z ≤ ray.origin.z + ray.direction.z * tv ∧
      ray.origin.z + ray.direction.z * tv ≤
        Max.max (Max.max (position.translate tr.p1).z (position.translate tr.p2).z)
          (position.translate tr.p3).z) := by
  simp only [Triangle.intersects] at h
  split_ifs at h with hdet hu hv
  simp only [Option.some.injEq, Prod.mk.injEq] at h
  obtain ⟨-, -, htv⟩ := h
  set q0 := position.translate tr.p1 with hq0
  set q1 := position.translate tr.p2 with hq1
  set q2 := position.translate tr.p3 with hq2
  set detv := Vec3.dot (q1 - q0) (Vec3.cross ray.direction (q2 - q0)) with hdetv
  set uv := Vec3.dot (ray.origin - q0) (Vec3.cross ray.direction (q2 - q0)) with huv
  set vv := Vec3.dot ray.direction (Vec3.cross (ray.origin - q0) (q1 - q0)) with hvv
  set tdv := Vec3.dot (q2 - q0) (Vec3.cross (ray.origin - q0) (q1 - q0)) with htdv
  have hdpos : 0 < detv := lt_of_lt_of_le (by norm_num [EPSILON]) (not_lt.mp hdet)
  have hdne : detv ≠ 0 := ne_of_gt hdpos
  push_neg at hu hv
  have ha : 0 ≤ uv / detv := div_nonneg hu.1 hdpos.le
  have hb : 0 ≤ vv / detv := div_nonneg hv.1 hdpos.le
  have hab : uv / detv + vv / detv ≤ 1 := by
    rw [div_add_div_same, div_le_one hdpos]
    exact hv.2
  have htv' : tdv = tv * detv := by
    field_simp at htv
    linarith
  have hcx := mt_cramer_x (q1 - q0) (q2 - q0) ray.direction (ray.origin - q0)
  have hcy := mt_cramer_y (q1 - q0) (q2 - q0) ray.direction (ray.origin - q0)
  have hcz := mt_cramer_z (q1 - q0) (q2 - q0) ray.direction (ray.origin - q0)
  rw [← hdetv, ← huv, ← hvv, ← htdv] at hcx hcy hcz
  simp only [Vec3.sub_x] at hcx
  simp only [Vec3.sub_y] at hcy
  simp only [Vec3.sub_z] at hcz
  have hx : ray.origin.x + ray.direction.x * tv =
      (1 - uv / detv - vv / detv) * q0.x + (uv / detv) * q1.x + (vv / detv) * q2.x := by
    field_simp
    linear_combination -hcx - ray.direction.x * htv'
  have hy : ray.origin.y + ray.direction.y * tv =
      (1 - uv / detv - vv / detv) * q0.y + (uv / detv) * q1.y + (vv / detv) * q2.y := by
    field_simp
    linear_combination -hcy - ray.direction.y * htv'
  have hz : ray.origin.z + ray.direction.z * tv =
      (1 - uv / detv - vv / detv) * q0.z + (uv / detv) * q1.z + (vv / detv) * q2.z := by
    field_simp
    linear_combination -hcz - ray.direction.z * htv'
  exact ⟨convex_coord_bounds q0.x q1.x q2.x _ _ _ ha hb hab hx,
    convex_coord_bounds q0.y q1.y q2.y _ _ _ ha hb hab hy,
    convex_coord_bounds q0.z q1.z q2.z _ _ _ ha hb hab hz⟩

/-- A point within a bounding box, componentwise. -/
def pointInBox (bb : BoundingBox) (p : Point) : Prop :=
  bb.min.x ≤ p.x ∧ p.x ≤ bb.max.x ∧ bb.min.y ≤ p.y ∧ p.y ≤ bb.max.y ∧
    bb.min.z ≤ p.z ∧ p.z ≤ bb.max.z

/-- All three corners of a triangle within a bounding box — the invariant
`Mesh::create_bounding_box` establishes for the triangles it encloses. -/
def triangleInBox (bb : BoundingBox) (t : Triangle) : Prop :=
  pointInBox bb t.p1 ∧ pointInBox bb t.p2 ∧ pointInBox bb t.p3

/-- Under the identity rotation, `translate` is the componentwise affine map
`v * scale + position`. -/
theorem translate_id_rot (position : WorldPosition)
    (hrot : position.rotation = Quat.one) (v : Point) :
    position.translate v =
      ⟨v.x * position.scale + position.position.x,
        v.y * position.scale + position.position.y,
        v.z * position.scale + position.position.z⟩ := by
  unfold WorldPosition.translate Quat.rotatePoint
  rw [hrot, Quat.rotateVector_one]
  rfl

theorem translate_x_mono (position : WorldPosition)
    (hrot : position.rotation = Quat.one) (hscale : 0 ≤ position.scale)
    (a b : Point) (h : a.x ≤ b.x) :
    (position.translate a).x ≤ (position.translate b).x := by
  rw [translate_id_rot _ hrot, translate_id_rot _ hrot]
  have := mul_le_mul_of_nonneg_right h hscale
  simp only
  linarith

theorem translate_y_mono (position : WorldPosition)
    (hrot : position.rotation = Quat.one) (hscale : 0 ≤ position.scale)
    (a b : Point) (h : a.y ≤ b.y) :
    (position.translate a).y ≤ (position.translate b).y := by
  rw [translate_id_rot _ hrot, translate_id_rot _ hrot]
  have := mul_le_mul_of_nonneg_right h hscale
  simp only
  linarith

theorem translate_z_mono (position : WorldPosition)
    (hrot : position.rotation = Quat.one) (hscale : 0 ≤ position.scale)
    (a b : Point) (h : a.z ≤ b.z) :
    (position.translate a).z ≤ (position.translate b).z := by
  rw [translate_id_rot _ hrot, translate_id_rot _ hrot]
  have := mul_le_mul_of_nonneg_right h hscale
  simp only
  linarith

/-- A brute-force mesh hit comes from some triangle of the mesh. -/
theorem bruteForce_mem (m : Mesh) (ray : Ray) (position : WorldPosition)
    (r : Direction × TextureCoords × ℝ)
    (h : Mesh.bruteForce m ray position = some r) :
    ∃ tri ∈ m.triangles, tri.intersects ray position = some r := by
  have hmem := rustMinBy_mem _ _ _ h
  rcases List.mem_filterMap.mp hmem with ⟨tri, htri, hint⟩
  exact ⟨tri, htri, hint⟩

/-- C2, amended: under an identity rotation, a positive scale, a ray with
nonzero direction components whose stored inverse direction is the
componentwise reciprocal, and a mesh whose triangles lie inside its
bounding box, the AABB-guarded lookup `Mesh::intersect` agrees with the
brute-force minimum-`t` test over every triangle whenever the brute-force
answer has a non-negative distance.  (The counterexample shows the guard
loses brute-force hits at negative distances; a non-identity rotation
invalidates the translated box in the same way.) -/
theorem c2_mesh_intersect_eq_brute_force (m : Mesh) (ray : Ray)
    (position : WorldPosition)
    (hrot : position.rotation = Quat.one)
    (hscale : 0 < position.scale)
    (hdx : ray.direction.x ≠ 0) (hdy : ray.direction.y ≠ 0) (hdz : ray.direction.z ≠ 0)
    (hinv : ray.invDirection =
      ⟨1 / ray.direction.x, 1 / ray.direction.y, 1 / ray.direction.z⟩)
    (hwf : ∀ tr ∈ m.triangles, triangleInBox m.bb tr)
    (hpos : ∀ r, Mesh.bruteForce m ray position = some r → 0 ≤ r.2.2) :
    Mesh.intersect m ray position = Mesh.bruteForce m ray position := by
  cases hbf : Mesh.bruteForce m ray position with
  | none =>
    rw [Mesh.intersect]
    split_ifs
    · exact hbf
    · rfl
  | some r =>
    have ht0 : 0 ≤ r.2.2 := hpos r hbf
    obtain ⟨tri, htri, hit⟩ := bruteForce_mem m ray position r hbf
    obtain ⟨n, tc, tv⟩ := r
    simp only at ht0
    have hbounds := triangle_hit_in_corner_box tri ray position n tc tv hit
    obtain ⟨hin1, hin2, hin3⟩ := hwf tri htri
    have hinvx : ray.invDirection.x = 1 / ray.direction.x := by rw [hinv]
    have hinvy : ray.invDirection.y = 1 / ray.direction.y := by rw [hinv]
    have hinvz : ray.invDirection.z = 1 / ray.direction.z := by rw [hinv]
    have hAx : (position.translate m.bb.min).x ≤ ray.origin.x + ray.direction.x * tv :=
      le_trans
        (le_min (le_min (translate_x_mono position hrot hscale.le _ _ hin1.1)
            (translate_x_mono position hrot hscale.le _ _ hin2.1))
          (translate_x_mono position hrot hscale.le _ _ hin3.1))
        hbounds.1.1
    have hBx : ray.origin.x + ray.direction.x * tv ≤ (position.translate m.bb.max).x :=
      le_trans hbounds.1.2
        (max_le (max_le (translate_x_mono position hrot hscale.le _ _ hin1.2.1)
            (translate_x_mono position hrot hscale.le _ _ hin2.2.1))
          (translate_x_mono position hrot hscale.le _ _ hin3.2.1))
    have hAy : (position.translate m.bb.min).y ≤ ray.origin.y + ray.direction.y * tv :=
      le_trans
        (le_min (le_min (translate_y_mono position hrot hscale.le _ _ hin1.2.2.1)
            (translate_y_mono position hrot hscale.le _ _ hin2.2.2.1))
          (translate_y_mono position hrot hscale.le _ _ hin3.2.2.1))
        hbounds.2.1.1
    have hBy : ray.origin.y + ray.direction.y * tv ≤ (position.translate m.bb.max).y :=
      le_trans hbounds.2.1.2
        (max_le (max_le (translate_y_mono position hrot hscale.le _ _ hin1.2.2.2.1)
            (translate_y_mono position hrot hscale.le _ _ hin2.2.2.2.1))
          (translate_y_mono position hrot hscale.le _ _ hin3.2.2.2.1))
    have hAz : (position.translate m.bb.min).z ≤ ray.origin.z + ray.direction.z * tv :=
      le_trans
        (le_min (le_min (translate_z_mono position hrot hscale.le _ _ hin1.2.2.2.2.1)
            (translate_z_mono position hrot hscale.le _ _ hin2.2.2.2.2.1))
          (translate_z_mono position hrot hscale.le _ _ hin3.2.2.2.2.1))
        hbounds.2.2.1
    have hBz : ray.origin.z + ray.direction.z * tv ≤ (position.translate m.bb.max).z :=
      le_trans hbounds.2.2.2
        (max_le (max_le (translate_z_mono position hrot hscale.le _ _ hin1.2.2.2.2.2)
            (translate_z_mono position hrot hscale.le _ _ hin2.2.2.2.2.2))
          (translate_z_mono position hrot hscale.le _ _ hin3.2.2.2.2.2))
    have hslabx := slab_axis_bounds _ _ _ _ tv hdx hAx hBx
    have hslaby := slab_axis_bounds _ _ _ _ tv hdy hAy hBy
    have hslabz := slab_axis_bounds _ _ _ _ tv hdz hAz hBz
    have htest : m.bb.intersects ray position := by
      simp only [BoundingBox.intersects, hinvx, hinvy, hinvz]
      have hlow : Max.max (Max.max
          (Min.min (((position.translate m.bb.min).x - ray.origin.x) * (1 / ray.direction.x))
            (((position.translate m.bb.max).x - ray.origin.x) * (1 / ray.direction.x)))
          (Min.min (((position.translate m.bb.min).y - ray.origin.y) * (1 / ray.direction.y))
            (((position.translate m.bb.max).y - ray.origin.y) * (1 / ray.direction.y))))
          (Min.min (((position.translate m.bb.min).z - ray.origin.z) * (1 / ray.direction.z))
            (((position.translate m.bb.max).z - ray.origin.z) * (1 / ray.direction.z))) ≤ tv :=
        max_le (max_le hslabx.1 hslaby.1) hslabz.1
      have hhigh : tv ≤ Min.min (Min.min
          (Max.max (((position.translate m.bb.min).x - ray.origin.x) * (1 / ray.direction.x))
            (((position.translate m.bb.max).x - ray.origin.x) * (1 / ray.direction.x)))
          (Max.max (((position.translate m.bb.min).y - ray.origin.y) * (1 / ray.direction.y))
            (((position.translate m.bb.max).y - ray.origin.y) * (1 / ray.direction.y))))
          (Max.max (((position.translate m.bb.min).z - ray.origin.z) * (1 / ray.direction.z))
            (((position.translate m.bb.max).z - ray.origin.z) * (1 / ray.direction.z))) :=
        le_min (le_min hslabx.2 hslaby.2) hslabz.2
      exact ⟨le_trans hlow hhigh, le_trans ht0 hhigh⟩
    rw [Mesh.intersect, if_pos htest, hbf]

/-- One triangle in the plane `z = 4`, facing the `+z` direction. -/
def c2Obj : Obj :=
  { vertices := [⟨-5, -5, 4⟩, ⟨5, -5, 4⟩, ⟨-5, 5, 4⟩]
    normals := []
    geometry := [⟨[⟨ObjPrimitive.triangle (0, none, none) (2, none, none)
      (1, none, none)⟩]⟩] }

def c2Tri : Triangle := ⟨⟨-5, -5, 4⟩, ⟨-5, 5, 4⟩, ⟨5, -5, 4⟩, none⟩

/-- A ray starting above the triangle's plane and moving away from it: the
only triangle intersection is at the negative distance `t = -1`. -/
noncomputable def c2Ray : Ray :=
  { origin := ⟨0, 0, 5⟩
    direction := ⟨1, 1, 1⟩
    invDirection := ⟨1, 1, 1⟩
    rayType := RayType.prime }

/-- C2, counterexample: for a mesh built by `Mesh::create` and a ray whose
only triangle hit has negative `t`, the AABB guard rejects the ray
(`tmax = -1 < 0`) and `Mesh::intersect` returns `None`, while the
brute-force test over every triangle returns a hit: the two disagree. -/
theorem c2_counterexample :
    ∃ m, Mesh.create c2Obj = some m ∧
      Mesh.intersect m c2Ray originPosition = none ∧
      (Mesh.bruteForce m c2Ray originPosition).isSome = true := by
  have hbb : Mesh.createBoundingBox c2Obj = some ⟨⟨-5, -5, 4⟩, ⟨5, 5, 4⟩⟩ := by
    norm_num [Mesh.createBoundingBox, c2Obj, min_def, max_def]
  have htris : Mesh.buildTriangles c2Obj = some [c2Tri] := rfl
  have hm : Mesh.create c2Obj = some
      ⟨c2Obj, ⟨⟨-5, -5, 4⟩, ⟨5, 5, 4⟩⟩, [c2Tri], MeshTreeNode.leaf [c2Tri]⟩ := by
    rw [Mesh.create, hbb, htris]
  refine ⟨⟨c2Obj, ⟨⟨-5, -5, 4⟩, ⟨5, 5, 4⟩⟩, [c2Tri], MeshTreeNode.leaf [c2Tri]⟩, hm, ?_, ?_⟩
  · have hnb : ¬ BoundingBox.intersects ⟨⟨-5, -5, 4⟩, ⟨5, 5, 4⟩⟩ c2Ray originPosition := by
      simp only [BoundingBox.intersects]
      norm_num [WorldPosition.translate, Quat.rotatePoint, Quat.rotateVector, Quat.one,
        Vec3.zero, originPosition, c2Ray, min_def, max_def]
    rw [Mesh.intersect]
    exact if_neg hnb
  · have hI : (Triangle.intersects c2Tri c2Ray originPosition).isSome = true := by
      norm_num [Triangle.intersects, EPSILON, WorldPosition.translate, Quat.rotatePoint,
        Quat.rotateVector, Quat.one, Vec3.zero, originPosition, c2Ray, c2Tri, Vec3.dot_def]
    dsimp only [Mesh.bruteForce]
    cases hI2 : Triangle.intersects c2Tri c2Ray originPosition with
    | none => rw [hI2] at hI; simp at hI
    | some x => simp [hI2, rustMinBy]

/-- The witness mesh: one triangle in the plane `z = 7` containing the
square `[-50,50]^2` half below its diagonal. -/
def c2wObj : Obj :=
  { vertices := [⟨50, 50, 7⟩, ⟨50, -50, 7⟩, ⟨-50, 50, 7⟩]
    normals := []
    geometry := [⟨[⟨ObjPrimitive.triangle (0, none, none) (1, none, none)
      (2, none, none)⟩]⟩] }

def c2wTri : Triangle := ⟨⟨50, 50, 7⟩, ⟨50, -50, 7⟩, ⟨-50, 50, 7⟩, none⟩

/-- A ray far above the triangle plane, whose barycentric test misses. -/
noncomputable def c2wRay : Ray :=
  { origin := ⟨0, 0, 100⟩
    direction := ⟨1, 1, 1⟩
    invDirection := ⟨1, 1, 1⟩
    rayType := RayType.prime }

/-- C2, witness: the amended equivalence applied to a concrete well-formed
mesh, an identity transform, and a ray with finite inverse direction. -/
theorem c2_witness :
    Mesh.intersect ⟨c2wObj, ⟨⟨-50, -50, 7⟩, ⟨50, 50, 7⟩⟩, [c2wTri],
        MeshTreeNode.leaf [c2wTri]⟩ c2wRay originPosition =
      Mesh.bruteForce ⟨c2wObj, ⟨⟨-50, -50, 7⟩, ⟨50, 50, 7⟩⟩, [c2wTri],
        MeshTreeNode.leaf [c2wTri]⟩ c2wRay originPosition := by
  have hInone : Triangle.intersects c2wTri c2wRay originPosition = none := by
    norm_num [Triangle.intersects, EPSILON, WorldPosition.translate, Quat.rotatePoint,
      Quat.rotateVector, Quat.one, Vec3.zero, originPosition, c2wRay, c2wTri, Vec3.dot_def]
  have hbfnone : Mesh.bruteForce ⟨c2wObj, ⟨⟨-50, -50, 7⟩, ⟨50, 50, 7⟩⟩, [c2wTri],
      MeshTreeNode.leaf [c2wTri]⟩ c2wRay originPosition = none := by
    dsimp only [Mesh.bruteForce]
    simp [hInone, rustMinBy]
  exact c2_mesh_intersect_eq_brute_force _ c2wRay originPosition rfl
    (by norm_num [originPosition])
    (by norm_num [c2wRay]) (by norm_num [c2wRay]) (by norm_num [c2wRay])
    (by norm_num [c2wRay])
    (by
      intro tr htr
      rw [List.mem_singleton] at htr
      subst htr
      norm_num [triangleInBox, pointInBox, c2wTri])
    (by
      intro r h
      rw [hbfnone] at h
      exact absurd h (by simp))

/-! ### C10: texture wrap addressing stays in bounds -/

/-- The truncated remainder negates with its dividend. -/
theorem tmod_neg_dividend (a b : ℤ) : Int.tmod (-a) b = -(Int.tmod a b) := by
  rw [Int.tmod_def, Int.tmod_def, Int.neg_tdiv]
  ring

/-- Lower bound of the truncated remainder for a positive modulus. -/
theorem neg_lt_tmod (a b : ℤ) (hb : 0 < b) : -b < Int.tmod a b := by
  rcases le_or_lt 0 a with ha | ha
  · have := Int.tmod_nonneg b ha
    linarith
  · have h1 := tmod_neg_dividend a b
    have h2 := Int.tmod_lt_of_pos (-a) hb
    linarith

/-- `wrap` lands strictly below `bound` for every real input, whenever the
`u32` bound fits in `i32` (as every real texture dimension does). -/
theorem wrap_lt (val : ℝ) (bound : ℕ) (h0 : 0 < bound) (h31 : bound < 2 ^ 31) :
    wrap val bound < bound := by
  have hsb : toI32 bound = (bound : ℤ) := by
    unfold toI32
    omega
  simp only [wrap, hsb]
  have hb : (0 : ℤ) < (bound : ℤ) := by exact_mod_cast h0
  have hw1 := Int.tmod_lt_of_pos (satCastI32 (val * (bound : ℝ))) hb
  have hw2 := neg_lt_tmod (satCastI32 (val * (bound : ℝ))) (bound : ℤ) hb
  set w := Int.tmod (satCastI32 (val * (bound : ℝ))) (bound : ℤ) with hw
  split_ifs with h
  · unfold toU32
    omega
  · unfold toU32
    omega

/-- C10: for every (possibly negative) texture coordinate the wrap-repeat
index is strictly below the dimension, so the texture lookup in
`Coloration::color` always calls `get_pixel` in bounds. -/
theorem c10_wrap_in_bounds (tex : Texture) (coords : TextureCoords)
    (hw0 : 0 < tex.width) (hw31 : tex.width < 2 ^ 31)
    (hh0 : 0 < tex.height) (hh31 : tex.height < 2 ^ 31) :
    wrap coords.x tex.width < tex.width ∧ wrap coords.y tex.height < tex.height ∧
      Coloration.colorAt (Coloration.texture tex) coords =
        Color.fromRgba (tex.getPixel (wrap coords.x tex.width) (wrap coords.y tex.height)) :=
  ⟨wrap_lt _ _ hw0 hw31, wrap_lt _ _ hh0 hh31, rfl⟩

/-- C10, witness: a 4x4 texture addressed at the negative coordinate
`(-1.5, 2.25)` stays in bounds. -/
theorem c10_witness :
    wrap (-1.5 : ℝ) 4 < 4 ∧ wrap (2.25 : ℝ) 4 < 4 ∧
      Coloration.colorAt (Coloration.texture ⟨4, 4, fun _ _ => ⟨0, 0, 0, 0⟩⟩)
          ⟨-1.5, 2.25⟩ =
        Color.fromRgba (Rgba8.mk 0 0 0 0) :=
  ⟨(c10_wrap_in_bounds ⟨4, 4, fun _ _ => ⟨0, 0, 0, 0⟩⟩ ⟨-1.5, 2.25⟩
      (by norm_num) (by norm_num) (by norm_num) (by norm_num)).1,
    (c10_wrap_in_bounds ⟨4, 4, fun _ _ => ⟨0, 0, 0, 0⟩⟩ ⟨-1.5, 2.25⟩
      (by norm_num) (by norm_num) (by norm_num) (by norm_num)).2.1,
    (c10_wrap_in_bounds ⟨4, 4, fun _ _ => ⟨0, 0, 0, 0⟩⟩ ⟨-1.5, 2.25⟩
      (by norm_num) (by norm_num) (by norm_num) (by norm_num)).2.2⟩

end Raytracer
